import Mathlib

/-!
Verification of the OpenContext Agent Streaming Session Engine.

Shallow embedding of the session store, message-tree mutators and the
stream dispatcher of `src/ui/src/components/agent` (`AgentSidebar.jsx`,
`hooks/useAgentStreaming.js`).  JavaScript objects become structures,
the React `useState`/`useRef` cells become fields of an explicit state
record, and every event callback becomes a state-transition function.
`Date.now()` is modelled by a logical clock (`time`) that ticks once per
delivered event; message-id generation (`msg-${Date.now()}-${random}`)
is modelled by a fresh-id counter `nextId`.
-/

namespace OpenContext

/-- A conversation message (`createMessage` in `AgentSidebar.jsx`):
`{id, role, kind, content, summary?, anchorId?, createdAt}`.
Ids are modelled as naturals produced by a fresh counter. -/
structure Message where
  id : Nat
  role : String
  kind : String
  content : String
  summary : Option String
  anchorId : Option Nat
  createdAt : Nat
deriving Repr, DecidableEq

/-- A session as far as the verified code paths touch it:
`{id, status, messages, updatedAt}` plus the `agentId`/`agentLabel`
metadata read by `buildModelMessages`.  Remaining display metadata
(name, intent, availableModels, ...) is irrelevant to the claims. -/
structure Session where
  id : String
  status : String
  agentId : String
  agentLabel : String
  messages : List Message
  updatedAt : Nat
deriving Repr, DecidableEq

/-- JS `Array.prototype.findIndex` (as `Option Nat` instead of `-1`). -/
def jsFindIndex (p : α → Bool) : List α → Option Nat
  | [] => none
  | x :: xs => if p x then some 0 else (jsFindIndex p xs).map (· + 1)

/-- The message-list part of `insertMessageAfter` (`AgentSidebar.jsx`
lines 1126-1139): `findIndex` for `afterId`; if not found append at the
end, otherwise `splice` the new message in right after the index. -/
def insertAfterList (msgs : List Message) (afterId : Nat) (msg : Message) :
    List Message :=
  match jsFindIndex (fun m => m.id == afterId) msgs with
  | none => msgs ++ [msg]
  | some i => msgs.take (i + 1) ++ [msg] ++ msgs.drop (i + 1)

/-- The message-list part of `updateMessageContent`: functional update of
the content of the message with the given id (no-op on all others). -/
def contentUpd (mid : Nat) (f : String → String) (msgs : List Message) :
    List Message :=
  msgs.map fun m => if m.id == mid then { m with content := f m.content } else m

/-- The message-list part of `updateMessageSummary`. -/
def summaryUpd (mid : Nat) (summary : String) (msgs : List Message) :
    List Message :=
  msgs.map fun m => if m.id == mid then { m with summary := some summary } else m

/-- `updateSession(sessionId, updater)` (`AgentSidebar.jsx` lines
1079-1087): map over the session list; the matching session is replaced
by `{...session, ...updater(session), updatedAt: Date.now()}`.  The JS
patch-object or updater-function argument is modelled as a function
`Session → Session`; `now` stands for `Date.now()`. -/
def updateSession (store : List Session) (sessionId : String)
    (updater : Session → Session) (now : Nat) : List Session :=
  store.map fun s =>
    if s.id == sessionId then { updater s with updatedAt := now } else s

/-- `appendMessages(sessionId, messages)` (lines 1089-1097). -/
def appendMessagesOp (store : List Session) (sessionId : String)
    (msgs : List Message) (now : Nat) : List Session :=
  updateSession store sessionId (fun s => { s with messages := s.messages ++ msgs }) now

/-- `updateMessageContent(sessionId, messageId, updater)` (lines 1099-1111). -/
def updateMessageContentOp (store : List Session) (sessionId : String)
    (mid : Nat) (f : String → String) (now : Nat) : List Session :=
  updateSession store sessionId
    (fun s => { s with messages := contentUpd mid f s.messages }) now

/-- `updateMessageSummary(sessionId, messageId, summary)` (lines 1113-1124). -/
def updateMessageSummaryOp (store : List Session) (sessionId : String)
    (mid : Nat) (summary : String) (now : Nat) : List Session :=
  updateSession store sessionId
    (fun s => { s with messages := summaryUpd mid summary s.messages }) now

/-- `insertMessageAfter(sessionId, afterId, message)` (lines 1126-1139). -/
def insertMessageAfterOp (store : List Session) (sessionId : String)
    (afterId : Nat) (msg : Message) (now : Nat) : List Session :=
  updateSession store sessionId
    (fun s => { s with messages := insertAfterList s.messages afterId msg }) now

/-- First session with the given id (`sessions.find(...)`). -/
def findSession (store : List Session) (sessionId : String) : Option Session :=
  store.find? fun s => s.id == sessionId

/-- Messages of the session with the given id (empty if absent). -/
def storeMsgs (store : List Session) (sessionId : String) : List Message :=
  match findSession store sessionId with
  | some s => s.messages
  | none => []

/-! ### OC_ACTION extraction (`AgentSidebar.jsx` lines 153-185) -/

/-- The double-quote character (written via its code point so that the
character literal does not interfere with string lexing). -/
def dquote : Char := Char.ofNat 34

/-- The single-quote character. -/
def squote : Char := Char.ofNat 39

/-- JS regex `\s` on the characters that can occur here. -/
def isJsWs (c : Char) : Bool := c.isWhitespace

/-- JS `String.prototype.trim`: strip whitespace from both ends (written
structurally so that concrete runs reduce inside the kernel). -/
def jsTrim (s : String) : String :=
  String.mk (((s.data.dropWhile isJsWs).reverse.dropWhile isJsWs).reverse)

/-- JS `String.prototype.trimEnd`: strip trailing whitespace. -/
def jsTrimRight (s : String) : String :=
  String.mk ((s.data.reverse.dropWhile isJsWs).reverse)

/-- JS `value.split('\n')` (structural). -/
def splitNlGo (acc : List Char) : List Char → List String
  | [] => [String.mk acc.reverse]
  | c :: cs =>
    if c == '\n' then String.mk acc.reverse :: splitNlGo [] cs
    else splitNlGo (c :: acc) cs

/-- JS `value.split('\n')` on a string. -/
def splitNl (s : String) : List String := splitNlGo [] s.data

/-- Case-insensitive prefix test (JS `i` flag, ASCII letters only here). -/
def startsWithCI (l pre : List Char) : Bool :=
  (l.take pre.length).map Char.toLower == pre.map Char.toLower

/-- One step of the `/"([^"]*)"|'([^']*)'|(\S+)/g` scan of
`splitCommandArgs` (`AgentSidebar.jsx` lines 153-164): a quoted token is
recognised only when a closing quote exists, otherwise the position is
consumed by the `\S+` alternative.  The JS `match[1] || match[2] ||
match[3]` yields `undefined` for an empty quoted token; its only consumer
(`args.join(' ')`) renders that as the empty string, which is what the
model pushes. -/
def splitArgsGo : Nat → List Char → List String
  | 0, _ => []
  | _, [] => []
  | fuel + 1, c :: cs =>
    if isJsWs c then splitArgsGo fuel cs
    else if c == dquote && cs.contains dquote then
      let tok := cs.takeWhile (fun d => d != dquote)
      String.mk tok :: splitArgsGo fuel (cs.drop (tok.length + 1))
    else if c == squote && cs.contains squote then
      let tok := cs.takeWhile (fun d => d != squote)
      String.mk tok :: splitArgsGo fuel (cs.drop (tok.length + 1))
    else
      let tok := cs.takeWhile (fun d => !isJsWs d)
      String.mk (c :: tok) :: splitArgsGo fuel (cs.drop tok.length)

/-- `splitCommandArgs` (`AgentSidebar.jsx` lines 153-164).  The regex scan
consumes at least one character per match, so running `splitArgsGo` with
the input length as fuel never exhausts it; the fuel only makes the
recursion structural. -/
def splitCommandArgs (value : String) : List String :=
  let input := jsTrim value
  if input == "" then [] else splitArgsGo input.toList.length input.toList

/-- Matching one line against `/^\s*OC_ACTION:\s*(.+)$/i` and returning
`match[1].trim()` (`extractOcAction`, line 173-175).  The greedy `\s*`
followed by the non-empty `(.+)` means the group trims to the rest after
the marker, or to `""` when that rest is all whitespace; the regex fails
only when nothing at all follows the marker. -/
def ocActionLine (line : String) : Option String :=
  let s := line.toList.dropWhile isJsWs
  let marker := "OC_ACTION:".toList
  if startsWithCI s marker then
    let rest := s.drop marker.length
    if rest.isEmpty then none else some (jsTrim (String.mk rest))
  else none

/-- The `/^oc\s+/i` strip of `extractOcAction` (line 182). -/
def stripOcWord (a : String) : String :=
  let l := a.toList
  if startsWithCI l ['o', 'c'] then
    match l.drop 2 with
    | [] => a
    | c :: rest => if isJsWs c then String.mk (rest.dropWhile isJsWs) else a
  else a

/-- `extractOcAction(value)` (`AgentSidebar.jsx` lines 166-185).  Returns
`(args, cleaned)`; the JS `args: null` case is modelled by `[]` (the only
consumer tests `args && args.length`).  A line matching the directive
regex is dropped from `kept` whenever `action` is still falsy (`null` or
`""`), exactly as the JS `if (match && !action)` does. -/
def extractOcAction (value : String) : List String × String :=
  if value == "" then ([], value)
  else
    let lines := splitNl value
    let r := lines.foldl
      (fun (acc : Option String × List String) line =>
        match ocActionLine line with
        | some a =>
          if acc.1 = none ∨ acc.1 = some "" then (some a, acc.2)
          else (acc.1, acc.2 ++ [line])
        | none => (acc.1, acc.2 ++ [line]))
      (none, [])
    let cleaned := jsTrimRight (String.intercalate "\n" r.2)
    match r.1 with
    | none => ([], cleaned)
    | some a =>
      if a == "" then ([], cleaned)
      else
        let args := splitCommandArgs (jsTrim (stripOcWord a))
        (args, cleaned)

/-! ### Conversation context (`buildModelMessages`, `AgentSidebar.jsx`
lines 33-39 and 451-465) -/

/-- `SYSTEM_PROMPT` (`AgentSidebar.jsx` lines 33-38). -/
def systemPromptText : String :=
  "You are OpenContext Agent.\nHelp the user with their requests using the selected coding agent.\nBe concise and action-oriented. Ask for missing details before acting.\nWhen you need to run OpenContext CLI, include a single line: OC_ACTION: <command args> (do not include \x22oc\x22)."

/-- `MAX_CONTEXT_MESSAGES` (`AgentSidebar.jsx` line 39). -/
def maxContextMessages : Nat := 12

/-- An entry of the provider-facing message payload. -/
structure ChatMessage where
  role : String
  content : String
deriving Repr, DecidableEq

/-- The `buildModelMessages` filter: text-kind user/assistant messages. -/
def isTextUA (m : Message) : Bool :=
  m.kind == "text" && (m.role == "user" || m.role == "assistant")

/-- JS `Array.prototype.slice(-n)` for `n > 0`: the last `n` elements. -/
def jsSliceLast (n : Nat) (l : List α) : List α := l.drop (l.length - n)

/-- JS `[parts].filter(Boolean).join(sep)`. -/
def joinNonEmpty (sep : String) (parts : List String) : String :=
  String.intercalate sep (parts.filter (fun s => s != ""))

/-- The system message built by `buildModelMessages` (lines 452-462). -/
def systemPreamble (session : Session) (extraSystem : String) : ChatMessage :=
  let agentLabel := if session.agentLabel != "" then session.agentLabel else session.agentId
  let agentLine := if agentLabel != "" then "Active coding agent: " ++ agentLabel else ""
  ⟨"system", joinNonEmpty "\n\n" [systemPromptText, agentLine, extraSystem]⟩

/-- `buildModelMessages(session, messages, extraSystem)` (lines 451-465). -/
def buildModelMessages (session : Session) (messages : List Message)
    (extraSystem : String) : List ChatMessage :=
  let filtered := (jsSliceLast maxContextMessages (messages.filter isTextUA)).map
    (fun m => ChatMessage.mk m.role m.content)
  systemPreamble session extraSystem :: filtered

/-! ### Stream dispatcher state (`useAgentStreaming.js`)

The `useRef` cells of the hook become fields of `StreamState`; the
callbacks of one in-flight request close over a `ReqCtx`. -/

/-- `activeToolAnchorRef` (`useAgentStreaming.js` lines 208-213). -/
structure Anchor where
  requestId : Nat
  sessionId : String
  assistantMessageId : Nat
  lastToolId : Option Nat
deriving Repr, DecidableEq

/-- `activeThoughtMessageRef` (lines 216-221). -/
structure ThoughtRef where
  requestId : Nat
  sessionId : String
  messageId : Option Nat
  anchorId : Nat
deriving Repr, DecidableEq

/-- The identity of a raised permission dialog (`setDialog`, keyed by the
session and permission call id; the confirm/cancel actions acknowledge
exactly that call id). -/
structure DialogSpec where
  sessionId : String
  callId : String
deriving Repr, DecidableEq

/-- Result of `api.execOcCommand` (`{stdout, stderr, code}`). -/
structure ExecResult where
  stdout : String
  stderr : String
  code : Option Int
deriving Repr, DecidableEq

/-- Outcome of the external command runner: resolved result or thrown
error (modelled by its rendered message string). -/
inductive ExecOutcome where
  | ok (r : ExecResult)
  | err (message : String)
deriving Repr, DecidableEq

/-- A JS `data.command` value: array of parts or plain string. -/
inductive CmdVal where
  | arr (parts : List String)
  | str (s : String)
deriving Repr, DecidableEq

/-- `Array.isArray(data.command) ? data.command.join(' ') : data.command`
with falsy/absent collapsing to `""`. -/
def cmdValText : Option CmdVal → String
  | some (.arr parts) => String.intercalate " " parts
  | some (.str s) => s
  | none => ""

/-- A `tool_call_update` content block: `{type:'content',
content:{type:'text', text}}`, `{type:'diff', path?}`, or anything else
(ignored by the handler). -/
inductive ToolBlock where
  | text (s : String)
  | diff (path : Option String)
  | other
deriving Repr, DecidableEq

/-- `data.update` of a `tool_call`/`tool_call_update` event.  `locations`
holds the `loc?.path` of each entry; `rawOutputError` is
`update?.rawOutput?.error`. -/
structure ToolUpdate where
  title : Option String
  kind : Option String
  status : Option String
  locations : List (Option String)
  content : List ToolBlock
  rawOutputError : Option String
deriving Repr, DecidableEq

/-- Empty `update` object (`data?.update || {}`). -/
def defaultToolUpdate : ToolUpdate := ⟨none, none, none, [], [], none⟩

/-- The duck-typed `data` payload of a tool event; each field models the
property the corresponding branch of `onTool` reads (`exitCode` covers
`data.exit_code ?? data.exitCode`, `toolName` covers
`data.toolName || data.tool_name`). -/
structure ToolData where
  update : Option ToolUpdate := none
  command : Option CmdVal := none
  cwd : Option String := none
  chunk : Option String := none
  exitCode : Option Int := none
  stderr : Option String := none
  success : Bool := false
  appliedChanges : List String := []
  failedChanges : List String := []
  error : Option String := none
  toolName : Option String := none
deriving Repr, DecidableEq

/-- A normalized tool event `{type, callId, data}`. -/
structure ToolEvent where
  type : String
  callId : String
  data : ToolData
deriving Repr, DecidableEq

/-- A normalized permission event.  `text` stands for the i18n-rendered
`messageLines.filter(Boolean).join('\n')` derived from the provider
payload (`useAgentStreaming.js` lines 317-405); that derivation only
shapes display strings and is independent of the dedup/split behaviour. -/
structure PermissionEvent where
  callId : String
  text : String
deriving Repr, DecidableEq

/-- The normalized event vocabulary delivered to one request's callbacks. -/
inductive AgentEvent where
  | token (s : String)
  | reasoning (s : String)
  | status (s : String)
  | tool (ev : ToolEvent)
  | permission (p : PermissionEvent)
deriving Repr, DecidableEq

/-- Values closed over by one `handleSend` invocation: the session id,
the generated request id, the id of the placeholder assistant message,
and the external i18n lookups (`t(key)` and `t('agent.toolError',
{message})`). -/
structure ReqCtx where
  sessionId : String
  requestId : Nat
  assistantMessageId : Nat
  t : String → String
  toolError : String → String

/-- The mutable state of the hook: the session store plus every
`useRef`/`useState` cell of `useAgentStreaming.js` (lines 28-40),
together with the ledger of raised dialogs, sent acknowledgements and
stop requests (effects of `setDialog`, `api.respond*Permission`,
`api.stop*`).  `nextId` is the fresh-id source for `createMessage` and
`time` the logical `Date.now()` clock. -/
structure StreamState where
  sessions : List Session
  nextId : Nat
  time : Nat
  activeRequestId : Option Nat
  stopRequested : Bool
  toolMessageMap : List ((String × String) × Nat)
  activeToolAnchor : Option Anchor
  activeThought : Option ThoughtRef
  activeAssistant : Option Nat
  toolSplit : List String
  handledPermission : List (String × String)
  expandedThoughts : List Nat
  isGenerating : Bool
  generatingSessionId : Option String
  reasoningText : String
  assistantText : String
  dialog : Option DialogSpec
  prompts : List DialogSpec
  acks : List (DialogSpec × Bool)
  stops : List String
deriving Repr, DecidableEq

/-- Lookup in `toolMessageMapRef` (keys are `${sessionId}:${callId}`). -/
def mapLookup (m : List ((String × String) × Nat)) (k : String × String) :
    Option Nat :=
  (m.find? (fun e => e.1 == k)).map (·.2)

/-- `ensureToolMessage` (`useAgentStreaming.js` lines 60-75): reuse the
mapped message for the key if one exists, otherwise create a tool message
(inserted after `insertAfterId` when given, else appended) and record it
in the map.  Returns the message id. -/
def ensureToolMessage (st : StreamState) (sessionId callId header kind : String)
    (insertAfterId anchorId : Option Nat) : Nat × StreamState :=
  let key := (sessionId, callId)
  match mapLookup st.toolMessageMap key with
  | some mid => (mid, st)
  | none =>
    let msg : Message := ⟨st.nextId, "tool", kind, header, none, anchorId, st.time⟩
    let sessions' :=
      match insertAfterId with
      | some a => insertMessageAfterOp st.sessions sessionId a msg st.time
      | none => appendMessagesOp st.sessions sessionId [msg] st.time
    (st.nextId,
      { st with
        sessions := sessions'
        nextId := st.nextId + 1
        toolMessageMap := (key, st.nextId) :: st.toolMessageMap })

/-- The `anchor && anchor.sessionId === sessionId && anchor.requestId ===
activeRequestIdRef.current` test, returning the matching anchor. -/
def anchorMatches (st : StreamState) (sessionId : String) : Option Anchor :=
  match st.activeToolAnchor with
  | some a =>
    if a.sessionId == sessionId && st.activeRequestId == some a.requestId then some a
    else none
  | none => none

/-- The content updater of `appendToolLikeMessage` (lines 104-109):
start with `text` if there is no base yet, keep the base for empty text,
otherwise join with a newline. -/
def appendLineFun (text base : String) : String :=
  if base == "" then text else if text == "" then base else base ++ "\n" ++ text

/-- `appendToolLikeMessage` (lines 77-113): resolve the insertion point
and anchor from the active tool anchor when no explicit one is given,
ensure the tool message, track it as the anchor's `lastToolId` on first
creation, and append `text` to its content (newline separated). -/
def appendToolLikeMessage (st : StreamState) (sessionId callId text kind : String)
    (insertAfterId : Option Nat) : Nat × StreamState :=
  let key := (sessionId, callId)
  let existed := (mapLookup st.toolMessageMap key).isSome
  let resolved :=
    match insertAfterId, anchorMatches st sessionId with
    | none, some a => (some (a.lastToolId.getD a.assistantMessageId), some a.assistantMessageId)
    | iA, _ => (iA, (none : Option Nat))
  let r := ensureToolMessage st sessionId callId "" kind resolved.1
    (resolved.2 <|> insertAfterId)
  let mid := r.1
  let st1 := r.2
  let st2 :=
    if !existed then
      match anchorMatches st1 sessionId with
      | some a => { st1 with activeToolAnchor := some { a with lastToolId := some mid } }
      | none => st1
    else st1
  (mid,
    { st2 with
      sessions := updateMessageContentOp st2.sessions sessionId mid
        (appendLineFun text) st2.time })

/-- `updateToolSummary` (lines 115-121). -/
def updateToolSummary (st : StreamState) (sessionId callId summary kind : String) :
    StreamState :=
  let r := ensureToolMessage st sessionId callId "" kind none none
  { r.2 with sessions := updateMessageSummaryOp r.2.sessions sessionId r.1 summary r.2.time }

/-- The `setExpandedThoughtMessages` collapse performed at the start of
`splitAssistantForTool` (lines 157-164): drop the active thought message
of this session from the expanded set. -/
def collapsedThoughts (st : StreamState) (sessionId : String) : List Nat :=
  match st.activeThought with
  | some tr =>
    match tr.messageId with
    | some tid =>
      if tr.sessionId == sessionId then st.expandedThoughts.filter (fun x => x != tid)
      else st.expandedThoughts
    | none => st.expandedThoughts
  | none => st.expandedThoughts

/-- `splitAssistantForTool` (lines 147-184): when the anchor matches the
session and live request and this call id has not split before, collapse
the expanded thought, insert the tool message right after the currently
targeted assistant message (anchored to it), remember the call id in
`toolSplitRef`, open a fresh empty assistant continuation right after the
tool message and retarget the anchor and `activeAssistantMessageRef` to
it. -/
def splitAssistantForTool (st : StreamState) (sessionId callId kind : String) :
    StreamState :=
  match anchorMatches st sessionId with
  | none => st
  | some a =>
    let currentAssistantId := st.activeAssistant.getD a.assistantMessageId
    if st.toolSplit.contains callId then st
    else
      let st0 := { st with expandedThoughts := collapsedThoughts st sessionId }
      let r := ensureToolMessage st0 sessionId callId "" kind
        (some currentAssistantId) (some currentAssistantId)
      let toolMessageId := r.1
      let st2 := { r.2 with toolSplit := callId :: r.2.toolSplit }
      let cont : Message := ⟨st2.nextId, "assistant", "text", "", none, none, st2.time⟩
      { st2 with
        nextId := st2.nextId + 1
        sessions := insertMessageAfterOp st2.sessions sessionId toolMessageId cont st2.time
        activeAssistant := some cont.id
        activeToolAnchor := some { a with assistantMessageId := cont.id,
                                          lastToolId := some toolMessageId } }

/-- The `onToken` callback (`useAgentStreaming.js` lines 263-269): apply
nothing once a stop was requested or the live request id changed,
otherwise accumulate `assistantText` and append the token to the
currently targeted assistant message. -/
def onToken (ctx : ReqCtx) (st : StreamState) (tok : String) : StreamState :=
  if st.stopRequested then st
  else if st.activeRequestId ≠ some ctx.requestId then st
  else
    let st1 := { st with assistantText := st.assistantText ++ tok }
    let targetId := st1.activeAssistant.getD ctx.assistantMessageId
    { st1 with
      sessions := updateMessageContentOp st1.sessions ctx.sessionId targetId
        (fun prev => prev ++ tok) st1.time }

/-- The `onReasoning` callback (lines 290-308): lazily create the thought
message right after the originating user message, then append the delta
to it. -/
def onReasoning (ctx : ReqCtx) (st : StreamState) (delta : String) : StreamState :=
  if st.activeRequestId ≠ some ctx.requestId then st
  else
    let st1 := { st with reasoningText := st.reasoningText ++ delta }
    match st1.activeThought with
    | none => st1
    | some tr =>
      if !(tr.requestId == ctx.requestId && tr.sessionId == ctx.sessionId) then st1
      else
        match tr.messageId with
        | some tid =>
          { st1 with
            sessions := updateMessageContentOp st1.sessions ctx.sessionId tid
              (fun prev => prev ++ delta) st1.time }
        | none =>
          let tm : Message := ⟨st1.nextId, "assistant", "thought", "", none, none, st1.time⟩
          let st2 :=
            { st1 with
              nextId := st1.nextId + 1
              sessions := insertMessageAfterOp st1.sessions ctx.sessionId tr.anchorId tm st1.time
              activeThought := some { tr with messageId := some tm.id }
              expandedThoughts := tm.id :: st1.expandedThoughts }
          { st2 with
            sessions := updateMessageContentOp st2.sessions ctx.sessionId tm.id
              (fun prev => prev ++ delta) st2.time }

/-- The keys of `STATUS_LABEL_KEYS` (`AgentSidebar.jsx` lines 40-48). -/
def statusLabelKnown (s : String) : Bool :=
  ["connecting", "connected", "authenticating", "authenticated",
   "session_active", "error", "disconnected"].contains s

/-- The `onStatus` callback (lines 275-289). -/
def onStatus (ctx : ReqCtx) (st : StreamState) (status : String) : StreamState :=
  if st.activeRequestId ≠ some ctx.requestId then st
  else
    let st1 :=
      if status != "" && statusLabelKnown status then
        { st with
          sessions := updateSession st.sessions ctx.sessionId
            (fun s => { s with status := status }) st.time }
      else st
    let st2 :=
      if status == "task_started" then
        { st1 with isGenerating := true, generatingSessionId := some ctx.sessionId }
      else st1
    if status == "stopped" then
      { st2 with isGenerating := false, generatingSessionId := none, reasoningText := "" }
    else st2

/-- The `onPermission` callback (lines 309-431): drop events for stale
requests or missing call ids, de-duplicate on `handledPermissionRef`,
perform the message split, append the rendered permission lines to the
tool message and raise the confirm dialog whose actions acknowledge this
call id. -/
def onPermission (ctx : ReqCtx) (st : StreamState) (p : PermissionEvent) : StreamState :=
  if st.activeRequestId ≠ some ctx.requestId then st
  else if p.callId == "" then st
  else
    let key := (ctx.sessionId, p.callId)
    if st.handledPermission.contains key then st
    else
      let st1 := { st with handledPermission := key :: st.handledPermission }
      let st2 := splitAssistantForTool st1 ctx.sessionId p.callId "tool"
      let st3 := (appendToolLikeMessage st2 ctx.sessionId p.callId p.text "tool" none).2
      { st3 with
        dialog := some ⟨ctx.sessionId, p.callId⟩
        prompts := st3.prompts ++ [⟨ctx.sessionId, p.callId⟩] }

/-- JS `a || b` for an optional string against a default. -/
def jsOr (a : Option String) (b : String) : String :=
  match a with
  | some s => if s == "" then b else s
  | none => b

/-- The `contentBlocks.forEach` body of the `tool_call_update` branch
(lines 455-464). -/
def applyToolBlock (ctx : ReqCtx) (cid : String) (acc : StreamState)
    (b : ToolBlock) : StreamState :=
  match b with
  | .text s => (appendToolLikeMessage acc ctx.sessionId cid s "tool" none).2
  | .diff p =>
    let line :=
      match p with
      | some s => if s == "" then "diff" else "diff: " ++ s
      | none => "diff"
    (appendToolLikeMessage acc ctx.sessionId cid line "tool" none).2
  | .other => acc

/-- The `status: ...` line derived from `update.status` (line 439),
empty when the status is falsy. -/
def statusLineOf (update : ToolUpdate) : String :=
  match update.status with
  | some s => if s == "" then "" else "status: " ++ s
  | none => ""

/-- The joined line appended by the `tool_call` branch (lines 442-449):
title, status line and location paths, blank entries filtered out. -/
def toolCallText (update : ToolUpdate) : String :=
  joinNonEmpty "\n"
    ([jsOr update.title (jsOr update.kind "Tool"), statusLineOf update] ++
      update.locations.filterMap fun p =>
        match p with
        | some s => if s == "" then none else some s
        | none => none)

/-- The header+cwd line of the `exec_command_begin` branch (lines 472-475). -/
def execBeginText (data : ToolData) : String :=
  let command := cmdValText data.command
  let header := if command != "" then "> " ++ command else "Running command"
  let cwdLine :=
    match data.cwd with
    | some c => if c == "" then "" else "cwd: " ++ c
    | none => ""
  joinNonEmpty "\n" [header, cwdLine]

/-- The footer of the `exec_command_end` branch (lines 484-485). -/
def execEndFooter (data : ToolData) : String :=
  match data.exitCode with
  | some c => "exit: " ++ toString c
  | none => "command finished"

/-- `success ? t('agent.patchApplied') : t('agent.patchFailed')` (line 500). -/
def patchStatusText (t : String → String) (data : ToolData) : String :=
  if data.success then t "agent.patchApplied" else t "agent.patchFailed"

/-- The header of the `mcp_tool_call_begin` branch (lines 516-517). -/
def mcpBeginText (t : String → String) (data : ToolData) : String :=
  match data.toolName with
  | some n => if n == "" then t "agent.mcpToolCall" else "MCP: " ++ n
  | none => t "agent.mcpToolCall"

/-- `if (cond) appendToolLikeMessage(...)`: the guarded appends of the
tool branches. -/
def appendIfState (cond : Bool) (sid cid text kind : String) (iA : Option Nat)
    (st : StreamState) : StreamState :=
  if cond then (appendToolLikeMessage st sid cid text kind iA).2 else st

/-- `if (o) appendToolLikeMessage(..., mk(o), ...)`: the guarded append of
an optional (possibly empty) payload string. -/
def matchErrState (o : Option String) (mk : String → String)
    (sid cid kind : String) (iA : Option Nat) (st : StreamState) : StreamState :=
  match o with
  | some e => if e == "" then st else (appendToolLikeMessage st sid cid (mk e) kind iA).2
  | none => st

/-- The `tool_call` branch (lines 440-450): split, then append the joined
title/status/location line. -/
def toolCallBranch (ctx : ReqCtx) (cid : String) (update : ToolUpdate)
    (st : StreamState) : StreamState :=
  (appendToolLikeMessage (splitAssistantForTool st ctx.sessionId cid "tool")
    ctx.sessionId cid (toolCallText update) "tool" none).2

/-- The `tool_call_update` branch (lines 452-468): optional status line,
the content blocks in order, then the optional `rawOutput.error`. -/
def toolCallUpdateBranch (ctx : ReqCtx) (cid : String) (update : ToolUpdate)
    (st : StreamState) : StreamState :=
  matchErrState update.rawOutputError (fun e => e) ctx.sessionId cid "tool" none
    (update.content.foldl (applyToolBlock ctx cid)
      (appendIfState (statusLineOf update != "") ctx.sessionId cid
        (statusLineOf update) "tool" none st))

/-- The `exec_command_begin` branch (lines 470-477). -/
def execBeginBranch (ctx : ReqCtx) (cid : String) (data : ToolData)
    (st : StreamState) : StreamState :=
  (appendToolLikeMessage (splitAssistantForTool st ctx.sessionId cid "tool")
    ctx.sessionId cid (execBeginText data) "tool" none).2

/-- The `exec_command_output_delta` branch (lines 478-482). -/
def execOutputBranch (ctx : ReqCtx) (cid : String) (data : ToolData)
    (st : StreamState) : StreamState :=
  appendIfState ((data.chunk.getD "") != "") ctx.sessionId cid
    (data.chunk.getD "") "tool" none st

/-- The `exec_command_end` branch (lines 483-491): footer, then stderr. -/
def execEndBranch (ctx : ReqCtx) (cid : String) (data : ToolData)
    (st : StreamState) : StreamState :=
  matchErrState data.stderr (fun e => e) ctx.sessionId cid "tool" none
    ((appendToolLikeMessage st ctx.sessionId cid (execEndFooter data) "tool" none).2)

/-- The `patch_apply_begin`/`apply_patch_begin` branch (lines 492-497). -/
def patchBeginBranch (ctx : ReqCtx) (cid : String) (st : StreamState) :
    StreamState :=
  (appendToolLikeMessage
    (updateToolSummary (splitAssistantForTool st ctx.sessionId cid "tool")
      ctx.sessionId cid (ctx.t "agent.patchApplying") "tool")
    ctx.sessionId cid (ctx.t "agent.patchApplying") "tool" none).2

/-- The `patch_apply_end`/`apply_patch_end` branch (lines 498-513):
summary, status line, applied/failed change lists, optional error. -/
def patchEndBranch (ctx : ReqCtx) (cid : String) (data : ToolData)
    (st : StreamState) : StreamState :=
  matchErrState data.error (fun e => e) ctx.sessionId cid "tool" none
    (appendIfState (!data.failedChanges.isEmpty) ctx.sessionId cid
      ("failed: " ++ String.intercalate ", " data.failedChanges) "tool" none
      (appendIfState (!data.appliedChanges.isEmpty) ctx.sessionId cid
        ("applied: " ++ String.intercalate ", " data.appliedChanges) "tool" none
        ((appendToolLikeMessage
          (updateToolSummary st ctx.sessionId cid (patchStatusText ctx.t data) "tool")
          ctx.sessionId cid (patchStatusText ctx.t data) "tool" none).2)))

/-- The `mcp_tool_call_begin` branch (lines 514-519). -/
def mcpBeginBranch (ctx : ReqCtx) (cid : String) (data : ToolData)
    (st : StreamState) : StreamState :=
  (appendToolLikeMessage (splitAssistantForTool st ctx.sessionId cid "tool")
    ctx.sessionId cid (mcpBeginText ctx.t data) "tool" none).2

/-- The `mcp_tool_call_end` branch (lines 521-524). -/
def mcpEndBranch (ctx : ReqCtx) (cid : String) (data : ToolData)
    (st : StreamState) : StreamState :=
  matchErrState data.error (fun e => "error: " ++ e) ctx.sessionId cid "tool" none st

/-- The `onTool` callback (lines 432-525), dispatching on `type`. -/
def onTool (ctx : ReqCtx) (st : StreamState) (ev : ToolEvent) : StreamState :=
  if st.activeRequestId ≠ some ctx.requestId then st
  else if ev.callId == "" then st
  else if ev.type == "tool_call" || ev.type == "tool_call_update" then
    if ev.type == "tool_call" then
      toolCallBranch ctx ev.callId (ev.data.update.getD defaultToolUpdate) st
    else
      toolCallUpdateBranch ctx ev.callId (ev.data.update.getD defaultToolUpdate) st
  else if ev.type == "exec_command_begin" then
    execBeginBranch ctx ev.callId ev.data st
  else if ev.type == "exec_command_output_delta" then
    execOutputBranch ctx ev.callId ev.data st
  else if ev.type == "exec_command_end" then
    execEndBranch ctx ev.callId ev.data st
  else if ev.type == "patch_apply_begin" || ev.type == "apply_patch_begin" then
    patchBeginBranch ctx ev.callId st
  else if ev.type == "patch_apply_end" || ev.type == "apply_patch_end" then
    patchEndBranch ctx ev.callId ev.data st
  else if ev.type == "mcp_tool_call_begin" then
    mcpBeginBranch ctx ev.callId ev.data st
  else if ev.type == "mcp_tool_call_end" then
    mcpEndBranch ctx ev.callId ev.data st
  else st

/-- Delivery of one event to the request's callbacks.  The logical clock
ticks once per delivered event (`Date.now()` advances). -/
def step (ctx : ReqCtx) (st : StreamState) (e : AgentEvent) : StreamState :=
  let st := { st with time := st.time + 1 }
  match e with
  | .token s => onToken ctx st s
  | .reasoning s => onReasoning ctx st s
  | .status s => onStatus ctx st s
  | .tool ev => onTool ctx st ev
  | .permission p => onPermission ctx st p

/-- Delivery of a sequence of events in order. -/
def applyEvents (ctx : ReqCtx) (st : StreamState) (evs : List AgentEvent) : StreamState :=
  evs.foldl (step ctx) st

/-- `handleStop` (lines 602-621): set the suppression flag, request the
provider-side stop when a request is live and a session is active, clear
the generating state and the live request id, and mark the active
session `disconnected`. -/
def handleStop (st : StreamState) (activeSessionId : Option String) : StreamState :=
  let st1 := { st with stopRequested := true }
  let st2 :=
    match st1.activeRequestId, activeSessionId with
    | some _, some sid => { st1 with stops := st1.stops ++ [sid] }
    | _, _ => st1
  let st3 :=
    { st2 with
      isGenerating := false
      generatingSessionId := none
      reasoningText := ""
      activeRequestId := none }
  match activeSessionId with
  | some sid =>
    { st3 with
      sessions := updateSession st3.sessions sid
        (fun s => { s with status := "disconnected" }) st3.time }
  | none => st3

/-- The user resolving the currently open confirm dialog: `CustomDialog`
invokes `onConfirm`/`onCancel` exactly once and closes, which sends the
acknowledgement for the dialog's call id. -/
def resolveDialog (st : StreamState) (decision : Bool) : StreamState :=
  match st.dialog with
  | some d => { st with acks := st.acks ++ [(d, decision)], dialog := none }
  | none => st

/-- A sequence of user dialog decisions. -/
def resolveAll (st : StreamState) (ds : List Bool) : StreamState :=
  ds.foldl resolveDialog st

/-- One `appendMessage` line of `runOcCommand` (lines 127-128). -/
def appendOcLine (st : StreamState) (sessionId callId kind : String)
    (insertAfterId : Option Nat) (text : String) : StreamState :=
  (appendToolLikeMessage st sessionId callId text kind insertAfterId).2

/-- `runOcCommand` (lines 123-145) with the `api.execOcCommand` result
supplied as an oracle: echo the command line, then stdout, stderr and
exit status (or the thrown error's message). -/
def runOcCommand (st : StreamState) (sessionId : String) (args : List String)
    (kind callId : String) (insertAfterId : Option Nat) (outcome : ExecOutcome) :
    StreamState :=
  if args.isEmpty then st
  else
    let st1 := appendOcLine st sessionId callId kind insertAfterId
      ("$ oc " ++ String.intercalate " " args)
    match outcome with
    | .ok r =>
      let st2 := if r.stdout != "" then
          appendOcLine st1 sessionId callId kind insertAfterId r.stdout else st1
      let st3 := if r.stderr != "" then
          appendOcLine st2 sessionId callId kind insertAfterId r.stderr else st2
      match r.code with
      | some c => appendOcLine st3 sessionId callId kind insertAfterId ("exit: " ++ toString c)
      | none => st3
    | .err message =>
      appendOcLine st1 sessionId callId kind insertAfterId
        (if message == "" then "oc command failed" else message)

/-- The ref-clearing tail of the `finally` block (lines 554-575): when
the request is still the live one, clear the generating state, the anchor
and thought refs of this request, the expanded thought, the split set and
the assistant target. -/
def requestCleanup (ctx : ReqCtx) (stA : StreamState) : StreamState :=
  if stA.activeRequestId == some ctx.requestId then
    let stB :=
      { stA with
        isGenerating := false
        generatingSessionId := none
        reasoningText := ""
        activeRequestId := none }
    let stC :=
      match stB.activeToolAnchor with
      | some a =>
        if a.requestId == ctx.requestId then { stB with activeToolAnchor := none } else stB
      | none => stB
    let stD :=
      match stC.activeThought with
      | some tr =>
        if tr.requestId == ctx.requestId then
          let stE :=
            match tr.messageId with
            | some tid =>
              { stC with expandedThoughts := stC.expandedThoughts.filter (fun x => x != tid) }
            | none => stC
          { stE with activeThought := none }
        else stC
      | none => stC
    { stD with toolSplit := [], activeAssistant := none }
  else stA

/-- The `finally` block of `handleSend` (lines 530-576).  On clean
completion the request-wide `assistantText` accumulator is scanned for an
OC_ACTION directive, the directive line is stripped from the currently
targeted assistant message, and a found command is run behind a fresh
message split (`ocCallId` models the generated `oc-${Date.now()}` id).
On a stream error a tool message with the rendered error is appended and
the session status becomes `error`.  Finally the per-request refs are
cleared when the request is still the live one. -/
def finishRequest (ctx : ReqCtx) (st : StreamState) (streamError : Option String)
    (ocCallId : String) (outcome : ExecOutcome) : StreamState :=
  let stA :=
    match streamError with
    | none =>
      let args := (extractOcAction st.assistantText).1
      let targetId := st.activeAssistant.getD ctx.assistantMessageId
      let st1 :=
        { st with
          sessions := updateMessageContentOp st.sessions ctx.sessionId targetId
            (fun prev => (extractOcAction prev).2) st.time }
      if args ≠ [] then
        let st2 := splitAssistantForTool st1 ctx.sessionId ocCallId "tool"
        runOcCommand st2 ctx.sessionId args "tool" ocCallId none outcome
      else st1
    | some message =>
      let msg : Message := ⟨st.nextId, "tool", "tool", ctx.toolError message, none, none, st.time⟩
      let st1 :=
        { st with
          nextId := st.nextId + 1
          sessions := appendMessagesOp st.sessions ctx.sessionId [msg] st.time }
      { st1 with
        sessions := updateSession st1.sessions ctx.sessionId
          (fun s => { s with status := "error" }) st1.time }
  requestCleanup ctx stA

/-- The request-wiring part of `handleSend` (lines 186-233): create the
user message and the empty placeholder assistant message, append both,
and initialise every per-request ref (anchor, active assistant, split
set, thought ref, suppression flag, `assistantText` accumulator).
Session-title/intent bookkeeping touches fields outside this model and
is omitted. -/
def initRequest (st : StreamState) (sessionId : String) (requestId : Nat)
    (trimmed : String) (t toolError : String → String) : ReqCtx × StreamState :=
  let userMsg : Message := ⟨st.nextId, "user", "text", trimmed, none, none, st.time⟩
  let asstMsg : Message := ⟨st.nextId + 1, "assistant", "text", "", none, none, st.time⟩
  let st1 :=
    { st with
      nextId := st.nextId + 2
      sessions := appendMessagesOp st.sessions sessionId [userMsg, asstMsg] st.time
      isGenerating := true
      generatingSessionId := some sessionId
      reasoningText := ""
      activeRequestId := some requestId
      activeToolAnchor := some ⟨requestId, sessionId, asstMsg.id, none⟩
      activeAssistant := some asstMsg.id
      toolSplit := []
      activeThought := some ⟨requestId, sessionId, none, userMsg.id⟩
      stopRequested := false
      assistantText := "" }
  (⟨sessionId, requestId, asstMsg.id, t, toolError⟩, st1)

/-- Message record of the given id in the given session, if any. -/
def getMsg (st : StreamState) (sessionId : String) (mid : Nat) : Option Message :=
  (storeMsgs st.sessions sessionId).find? (fun m => m.id == mid)

/-- Content of the message of the given id in the given session. -/
def msgContent (st : StreamState) (sessionId : String) (mid : Nat) : Option String :=
  (getMsg st sessionId mid).map (·.content)

/-- Ids of the messages of a given role in a message list. -/
def roleIds (r : String) (msgs : List Message) : List Nat :=
  (msgs.filter (fun m => m.role == r)).map (·.id)

/-- Messages of the session with the given id in a stream state. -/
def msgsOf (st : StreamState) (sessionId : String) : List Message :=
  storeMsgs st.sessions sessionId

/-! ### Basic lemmas about the store primitives -/

lemma find?_map_of_pred_eq {α : Type _} (g : α → α) (p : α → Bool)
    (h : ∀ a, p (g a) = p a) :
    ∀ l : List α, (l.map g).find? p = (l.find? p).map g := by
  intro l
  induction l with
  | nil => simp
  | cons x xs ih =>
    by_cases hx : p x
    · simp [List.find?_cons, h, hx]
    · simp only [List.map_cons, List.find?_cons, h, hx]
      simp only [hx] at *
      simpa using ih

/-- Stamping of `updateSession`: `{...updater(session), updatedAt: now}`. -/
def stampApply (g : Session → Session) (now : Nat) (s : Session) : Session :=
  { g s with updatedAt := now }

lemma updateSession_map (store : List Session) (sid : String)
    (g : Session → Session) (now : Nat) :
    updateSession store sid g now =
      store.map (fun s => if s.id == sid then stampApply g now s else s) := rfl

lemma findSession_updateSession_self (store : List Session) (sid : String)
    (g : Session → Session) (now : Nat) (hg : ∀ s, (g s).id = s.id) :
    findSession (updateSession store sid g now) sid =
      (findSession store sid).map (stampApply g now) := by
  unfold findSession updateSession
  rw [find?_map_of_pred_eq]
  · cases h : store.find? (fun s => s.id == sid) with
    | none => rfl
    | some s =>
      have hs : s.id = sid := by simpa using List.find?_some h
      simp [stampApply, hs]
  · intro s
    by_cases h : s.id == sid
    · simp [h, stampApply, hg]
    · simp [h]

lemma updateSession_absent (store : List Session) (sid : String)
    (g : Session → Session) (now : Nat) (h : ∀ s ∈ store, ¬ s.id = sid) :
    updateSession store sid g now = store := by
  unfold updateSession
  induction store with
  | nil => rfl
  | cons s rest ih =>
    have hs : ¬ s.id = sid := h s (List.mem_cons_self s rest)
    have hrest : ∀ x ∈ rest, ¬ x.id = sid := fun x hx => h x (List.mem_cons_of_mem s hx)
    simp only [List.map_cons]
    rw [if_neg (by simpa using hs), ih hrest]

lemma findSession_stream (st : StreamState) (sid : String) (s : Session)
    (h : findSession st.sessions sid = some s) : msgsOf st sid = s.messages := by
  simp [msgsOf, storeMsgs, h]

lemma findSession_appendMessagesOp (store : List Session) (sid : String)
    (msgs : List Message) (now : Nat) (s : Session)
    (h : findSession store sid = some s) :
    findSession (appendMessagesOp store sid msgs now) sid =
      some { s with messages := s.messages ++ msgs, updatedAt := now } := by
  unfold appendMessagesOp
  rw [findSession_updateSession_self store sid
    (fun s => { s with messages := s.messages ++ msgs }) now (fun _ => rfl), h]
  rfl

lemma findSession_updateMessageContentOp (store : List Session) (sid : String)
    (mid : Nat) (f : String → String) (now : Nat) (s : Session)
    (h : findSession store sid = some s) :
    findSession (updateMessageContentOp store sid mid f now) sid =
      some { s with messages := contentUpd mid f s.messages, updatedAt := now } := by
  unfold updateMessageContentOp
  rw [findSession_updateSession_self store sid
    (fun s => { s with messages := contentUpd mid f s.messages }) now (fun _ => rfl), h]
  rfl

lemma findSession_updateMessageSummaryOp (store : List Session) (sid : String)
    (mid : Nat) (summary : String) (now : Nat) (s : Session)
    (h : findSession store sid = some s) :
    findSession (updateMessageSummaryOp store sid mid summary now) sid =
      some { s with messages := summaryUpd mid summary s.messages, updatedAt := now } := by
  unfold updateMessageSummaryOp
  rw [findSession_updateSession_self store sid
    (fun s => { s with messages := summaryUpd mid summary s.messages }) now (fun _ => rfl), h]
  rfl

lemma findSession_insertMessageAfterOp (store : List Session) (sid : String)
    (afterId : Nat) (msg : Message) (now : Nat) (s : Session)
    (h : findSession store sid = some s) :
    findSession (insertMessageAfterOp store sid afterId msg now) sid =
      some { s with messages := insertAfterList s.messages afterId msg,
                    updatedAt := now } := by
  unfold insertMessageAfterOp
  rw [findSession_updateSession_self store sid
    (fun s => { s with messages := insertAfterList s.messages afterId msg }) now (fun _ => rfl), h]
  rfl

lemma findSession_statusUpdate (store : List Session) (sid : String)
    (v : String) (now : Nat) (s : Session)
    (h : findSession store sid = some s) :
    findSession (updateSession store sid (fun s => { s with status := v }) now) sid =
      some { s with status := v, updatedAt := now } := by
  rw [findSession_updateSession_self store sid
    (fun s => { s with status := v }) now (fun _ => rfl), h]
  rfl

/-! ### Lemmas about the message-list primitives -/

lemma contentUpd_id_not_mem (mid : Nat) (f : String → String)
    (msgs : List Message) (h : ∀ m ∈ msgs, ¬ m.id = mid) :
    contentUpd mid f msgs = msgs := by
  unfold contentUpd
  induction msgs with
  | nil => rfl
  | cons m rest ih =>
    have hm : ¬ m.id = mid := h m (List.mem_cons_self m rest)
    have hrest : ∀ x ∈ rest, ¬ x.id = mid := fun x hx => h x (List.mem_cons_of_mem m hx)
    simp only [List.map_cons]
    rw [if_neg (by simpa using hm), ih hrest]

lemma find?_contentUpd (mid : Nat) (f : String → String) (msgs : List Message)
    (x : Nat) :
    (contentUpd mid f msgs).find? (fun m => m.id == x) =
      (msgs.find? (fun m => m.id == x)).map
        (fun m => if m.id == mid then { m with content := f m.content } else m) := by
  unfold contentUpd
  apply find?_map_of_pred_eq
  intro m
  by_cases h : m.id == mid <;> simp [h]

lemma find?_summaryUpd (mid : Nat) (summary : String) (msgs : List Message)
    (x : Nat) :
    (summaryUpd mid summary msgs).find? (fun m => m.id == x) =
      (msgs.find? (fun m => m.id == x)).map
        (fun m => if m.id == mid then { m with summary := some summary } else m) := by
  unfold summaryUpd
  apply find?_map_of_pred_eq
  intro m
  by_cases h : m.id == mid <;> simp [h]

lemma roleIds_contentUpd (r : String) (mid : Nat) (f : String → String)
    (msgs : List Message) :
    roleIds r (contentUpd mid f msgs) = roleIds r msgs := by
  unfold roleIds contentUpd
  induction msgs with
  | nil => rfl
  | cons m rest ih =>
    by_cases h : m.id == mid
    · by_cases hr : m.role == r <;>
        simp_all [List.filter_cons, h, hr]
    · by_cases hr : m.role == r <;>
        simp_all [List.filter_cons, h, hr]

lemma roleIds_summaryUpd (r : String) (mid : Nat) (summary : String)
    (msgs : List Message) :
    roleIds r (summaryUpd mid summary msgs) = roleIds r msgs := by
  unfold roleIds summaryUpd
  induction msgs with
  | nil => rfl
  | cons m rest ih =>
    by_cases h : m.id == mid
    · by_cases hr : m.role == r <;>
        simp_all [List.filter_cons, h, hr]
    · by_cases hr : m.role == r <;>
        simp_all [List.filter_cons, h, hr]

lemma insertAfterList_nil (afterId : Nat) (msg : Message) :
    insertAfterList [] afterId msg = [msg] := rfl

lemma jsFindIndex_cons (p : α → Bool) (x : α) (xs : List α) :
    jsFindIndex p (x :: xs) =
      if p x then some 0 else (jsFindIndex p xs).map (· + 1) := rfl

lemma insertAfterList_cons (m : Message) (ms : List Message) (afterId : Nat)
    (msg : Message) :
    insertAfterList (m :: ms) afterId msg =
      if m.id == afterId then m :: msg :: ms
      else m :: insertAfterList ms afterId msg := by
  by_cases h : (m.id == afterId) = true
  · simp [insertAfterList, jsFindIndex_cons, h]
  · rw [if_neg h]
    unfold insertAfterList
    rw [jsFindIndex_cons, if_neg h]
    cases hfind : jsFindIndex (fun x => x.id == afterId) ms with
    | none => simp [hfind]
    | some i => simp [hfind, List.take_succ_cons, List.drop_succ_cons]

lemma insertAfterList_found (m1 : List Message) (a : Message) (m2 : List Message)
    (msg : Message) (h : ∀ m ∈ m1, ¬ m.id = a.id) :
    insertAfterList (m1 ++ a :: m2) a.id msg = m1 ++ a :: msg :: m2 := by
  induction m1 with
  | nil => simp [insertAfterList_cons]
  | cons x rest ih =>
    have hx : ¬ x.id = a.id := h x (List.mem_cons_self x rest)
    have hrest : ∀ m ∈ rest, ¬ m.id = a.id := fun m hm => h m (List.mem_cons_of_mem x hm)
    simp only [List.cons_append, insertAfterList_cons]
    rw [if_neg (by simpa using hx), ih hrest]

lemma insertAfterList_not_found (msgs : List Message) (afterId : Nat)
    (msg : Message) (h : ∀ m ∈ msgs, ¬ m.id = afterId) :
    insertAfterList msgs afterId msg = msgs ++ [msg] := by
  induction msgs with
  | nil => rfl
  | cons x rest ih =>
    have hx : ¬ x.id = afterId := h x (List.mem_cons_self x rest)
    have hrest : ∀ m ∈ rest, ¬ m.id = afterId := fun m hm => h m (List.mem_cons_of_mem x hm)
    rw [insertAfterList_cons, if_neg (by simpa using hx), ih hrest]
    rfl

lemma find?_insertAfterList (msgs : List Message) (afterId : Nat) (msg : Message)
    (x : Nat) (h : ¬ msg.id = x) :
    (insertAfterList msgs afterId msg).find? (fun m => m.id == x) =
      msgs.find? (fun m => m.id == x) := by
  have hx : (msg.id == x) = false := by simpa using h
  induction msgs with
  | nil => simp [insertAfterList_nil, List.find?, hx]
  | cons m rest ih =>
    rw [insertAfterList_cons]
    by_cases ha : m.id == afterId
    · by_cases hx : m.id == x
      · simp [ha, hx, List.find?_cons]
      · simp [ha, hx, List.find?_cons, h]
    · by_cases hx : m.id == x
      · simp [ha, hx, List.find?_cons]
      · simp [ha, hx, List.find?_cons, ih]

lemma roleIds_insertAfterList (r : String) (msgs : List Message) (afterId : Nat)
    (msg : Message) (h : ¬ msg.role = r) :
    roleIds r (insertAfterList msgs afterId msg) = roleIds r msgs := by
  induction msgs with
  | nil => simp [insertAfterList_nil, roleIds, List.filter_cons, h]
  | cons m rest ih =>
    rw [insertAfterList_cons]
    by_cases ha : m.id == afterId
    · simp only [ha, if_true]
      unfold roleIds
      by_cases hr : m.role == r <;>
        simp_all [List.filter_cons, hr]
    · simp only [ha, if_false, Bool.false_eq_true]
      unfold roleIds at *
      by_cases hr : m.role == r <;>
        simp_all [List.filter_cons, hr]

lemma mem_of_mem_insertAfterList (msgs : List Message) (afterId : Nat)
    (msg : Message) (m : Message) (hm : m ∈ insertAfterList msgs afterId msg) :
    m ∈ msgs ∨ m = msg := by
  unfold insertAfterList at hm
  cases hfind : jsFindIndex (fun x => x.id == afterId) msgs with
  | none =>
    rw [hfind] at hm
    rcases List.mem_append.mp hm with h | h
    · exact Or.inl h
    · exact Or.inr (by simpa using h)
  | some i =>
    rw [hfind] at hm
    rcases List.mem_append.mp hm with h | h
    · rcases List.mem_append.mp h with h1 | h1
      · exact Or.inl (List.mem_of_mem_take h1)
      · exact Or.inr (by simpa using h1)
    · exact Or.inl (List.mem_of_mem_drop h)

lemma mem_of_mem_contentUpd (mid : Nat) (f : String → String)
    (msgs : List Message) (m : Message) (hm : m ∈ contentUpd mid f msgs)
    (h : ¬ m.id = mid) : m ∈ msgs := by
  unfold contentUpd at hm
  rcases List.mem_map.mp hm with ⟨m0, hm0, heq⟩
  by_cases h0 : (m0.id == mid) = true
  · exfalso
    apply h
    have hm' : m = { m0 with content := f m0.content } := by rw [← heq]; simp [h0]
    rw [hm']
    exact beq_iff_eq.mp h0
  · have hm' : m = m0 := by rw [← heq]; simp [h0]
    rw [hm']
    exact hm0

lemma mem_of_mem_summaryUpd (mid : Nat) (summary : String)
    (msgs : List Message) (m : Message) (hm : m ∈ summaryUpd mid summary msgs)
    (h : ¬ m.id = mid) : m ∈ msgs := by
  unfold summaryUpd at hm
  rcases List.mem_map.mp hm with ⟨m0, hm0, heq⟩
  by_cases h0 : (m0.id == mid) = true
  · exfalso
    apply h
    have hm' : m = { m0 with summary := some summary } := by rw [← heq]; simp [h0]
    rw [hm']
    exact beq_iff_eq.mp h0
  · have hm' : m = m0 := by rw [← heq]; simp [h0]
    rw [hm']
    exact hm0

/-! ### Operational lemmas for the tool-message primitives -/

lemma ensureToolMessage_hit (st : StreamState) (sid cid header kind : String)
    (iA aId : Option Nat) (τ : Nat)
    (h : mapLookup st.toolMessageMap (sid, cid) = some τ) :
    ensureToolMessage st sid cid header kind iA aId = (τ, st) := by
  simp only [ensureToolMessage, h]

lemma ensureToolMessage_miss_insert (st : StreamState) (sid cid header kind : String)
    (after : Nat) (aId : Option Nat)
    (h : mapLookup st.toolMessageMap (sid, cid) = none) :
    ensureToolMessage st sid cid header kind (some after) aId =
      (st.nextId,
        { st with
          sessions := insertMessageAfterOp st.sessions sid after
            ⟨st.nextId, "tool", kind, header, none, aId, st.time⟩ st.time
          nextId := st.nextId + 1
          toolMessageMap := ((sid, cid), st.nextId) :: st.toolMessageMap }) := by
  simp only [ensureToolMessage, h]

lemma ensureToolMessage_miss_append (st : StreamState) (sid cid header kind : String)
    (aId : Option Nat)
    (h : mapLookup st.toolMessageMap (sid, cid) = none) :
    ensureToolMessage st sid cid header kind none aId =
      (st.nextId,
        { st with
          sessions := appendMessagesOp st.sessions sid
            [⟨st.nextId, "tool", kind, header, none, aId, st.time⟩] st.time
          nextId := st.nextId + 1
          toolMessageMap := ((sid, cid), st.nextId) :: st.toolMessageMap }) := by
  simp only [ensureToolMessage, h]

lemma appendToolLike_hit (st : StreamState) (sid cid text kind : String)
    (iA : Option Nat) (τ : Nat)
    (h : mapLookup st.toolMessageMap (sid, cid) = some τ) :
    appendToolLikeMessage st sid cid text kind iA =
      (τ, { st with
            sessions := updateMessageContentOp st.sessions sid τ
              (appendLineFun text) st.time }) := by
  simp only [appendToolLikeMessage, ensureToolMessage, h]
  simp

lemma updateToolSummary_hit (st : StreamState) (sid cid summary kind : String)
    (τ : Nat) (h : mapLookup st.toolMessageMap (sid, cid) = some τ) :
    updateToolSummary st sid cid summary kind =
      { st with
        sessions := updateMessageSummaryOp st.sessions sid τ summary st.time } := by
  simp only [updateToolSummary, ensureToolMessage, h]

lemma split_no_anchor (st : StreamState) (sid cid kind : String)
    (h : anchorMatches st sid = none) :
    splitAssistantForTool st sid cid kind = st := by
  simp only [splitAssistantForTool, h]

lemma split_already (st : StreamState) (sid cid kind : String) (a : Anchor)
    (h : anchorMatches st sid = some a)
    (h2 : st.toolSplit.contains cid = true) :
    splitAssistantForTool st sid cid kind = st := by
  simp only [splitAssistantForTool, h, h2, if_true]

lemma split_hit (st : StreamState) (sid cid kind : String) (a : Anchor) (τ : Nat)
    (h : anchorMatches st sid = some a)
    (h2 : st.toolSplit.contains cid = false)
    (h3 : mapLookup st.toolMessageMap (sid, cid) = some τ) :
    splitAssistantForTool st sid cid kind =
      { st with
        expandedThoughts := collapsedThoughts st sid
        toolSplit := cid :: st.toolSplit
        nextId := st.nextId + 1
        sessions := insertMessageAfterOp st.sessions sid τ
          ⟨st.nextId, "assistant", "text", "", none, none, st.time⟩ st.time
        activeAssistant := some st.nextId
        activeToolAnchor := some { a with assistantMessageId := st.nextId,
                                          lastToolId := some τ } } := by
  simp only [splitAssistantForTool, h, h2, ensureToolMessage, mapLookup] at *
  simp only [h3, Bool.false_eq_true, if_false]

lemma split_fresh (st : StreamState) (sid cid kind : String) (a : Anchor)
    (h : anchorMatches st sid = some a)
    (h2 : st.toolSplit.contains cid = false)
    (h3 : mapLookup st.toolMessageMap (sid, cid) = none) :
    splitAssistantForTool st sid cid kind =
      { st with
        expandedThoughts := collapsedThoughts st sid
        toolMessageMap := ((sid, cid), st.nextId) :: st.toolMessageMap
        toolSplit := cid :: st.toolSplit
        nextId := st.nextId + 2
        sessions := insertMessageAfterOp
          (insertMessageAfterOp st.sessions sid (st.activeAssistant.getD a.assistantMessageId)
            ⟨st.nextId, "tool", kind, "", none,
              some (st.activeAssistant.getD a.assistantMessageId), st.time⟩ st.time)
          sid st.nextId ⟨st.nextId + 1, "assistant", "text", "", none, none, st.time⟩ st.time
        activeAssistant := some (st.nextId + 1)
        activeToolAnchor := some { a with assistantMessageId := st.nextId + 1,
                                          lastToolId := some st.nextId } } := by
  simp only [splitAssistantForTool, h, h2, ensureToolMessage, mapLookup] at *
  simp only [h3, Bool.false_eq_true, if_false]

/-! ### Store-level characterizations (valid also for an absent session) -/

lemma storeMsgs_contentOp (store : List Session) (sid : String) (mid : Nat)
    (f : String → String) (now : Nat) :
    storeMsgs (updateMessageContentOp store sid mid f now) sid =
      contentUpd mid f (storeMsgs store sid) := by
  unfold storeMsgs updateMessageContentOp
  rw [findSession_updateSession_self store sid
    (fun s => { s with messages := contentUpd mid f s.messages }) now (fun _ => rfl)]
  cases findSession store sid <;> simp [stampApply, contentUpd]

lemma storeMsgs_summaryOp (store : List Session) (sid : String) (mid : Nat)
    (summary : String) (now : Nat) :
    storeMsgs (updateMessageSummaryOp store sid mid summary now) sid =
      summaryUpd mid summary (storeMsgs store sid) := by
  unfold storeMsgs updateMessageSummaryOp
  rw [findSession_updateSession_self store sid
    (fun s => { s with messages := summaryUpd mid summary s.messages }) now (fun _ => rfl)]
  cases findSession store sid <;> simp [stampApply, summaryUpd]

lemma storeMsgs_insertOp (store : List Session) (sid : String) (afterId : Nat)
    (msg : Message) (now : Nat) :
    storeMsgs (insertMessageAfterOp store sid afterId msg now) sid =
      match findSession store sid with
      | some s => insertAfterList s.messages afterId msg
      | none => [] := by
  unfold storeMsgs insertMessageAfterOp
  rw [findSession_updateSession_self store sid
    (fun s => { s with messages := insertAfterList s.messages afterId msg }) now (fun _ => rfl)]
  cases findSession store sid <;> simp [stampApply]

lemma storeMsgs_appendOp (store : List Session) (sid : String)
    (msgs : List Message) (now : Nat) :
    storeMsgs (appendMessagesOp store sid msgs now) sid =
      match findSession store sid with
      | some s => s.messages ++ msgs
      | none => [] := by
  unfold storeMsgs appendMessagesOp
  rw [findSession_updateSession_self store sid
    (fun s => { s with messages := s.messages ++ msgs }) now (fun _ => rfl)]
  cases findSession store sid <;> simp [stampApply]

lemma roleIds_append_one (r : String) (msgs : List Message) (m : Message)
    (h : ¬ m.role = r) : roleIds r (msgs ++ [m]) = roleIds r msgs := by
  unfold roleIds
  rw [List.filter_append]
  have hm : List.filter (fun x => x.role == r) [m] = [] := by
    simp [List.filter_cons, h]
  rw [hm, List.append_nil]

/-! ### Preservation relations used by the de-duplication claims -/

/-- Between two states: the tool-message map is unchanged, the session's
tool-role message ids are unchanged, and every tool message other than
the mapped one `τ` is untouched. -/
def ToolPreserve (sid : String) (τ : Nat) (s1 s2 : StreamState) : Prop :=
  s2.toolMessageMap = s1.toolMessageMap ∧
  roleIds "tool" (msgsOf s2 sid) = roleIds "tool" (msgsOf s1 sid) ∧
  (∀ m ∈ msgsOf s2 sid, m.role = "tool" → ¬ m.id = τ → m ∈ msgsOf s1 sid)

lemma toolPreserve_refl (sid : String) (τ : Nat) (s : StreamState) :
    ToolPreserve sid τ s s :=
  ⟨rfl, rfl, fun _ hm _ _ => hm⟩

lemma toolPreserve_trans {sid : String} {τ : Nat} {s1 s2 s3 : StreamState}
    (h12 : ToolPreserve sid τ s1 s2) (h23 : ToolPreserve sid τ s2 s3) :
    ToolPreserve sid τ s1 s3 := by
  obtain ⟨m12, r12, p12⟩ := h12
  obtain ⟨m23, r23, p23⟩ := h23
  exact ⟨m23.trans m12, r23.trans r12,
    fun m hm hr hτ => p12 m (p23 m hm hr hτ) hr hτ⟩

lemma toolPreserve_of_frame {sid : String} {τ : Nat} {s1 s2 : StreamState}
    (hmap : s2.toolMessageMap = s1.toolMessageMap)
    (hsess : s2.sessions = s1.sessions) : ToolPreserve sid τ s1 s2 := by
  refine ⟨hmap, ?_, ?_⟩
  · simp [msgsOf, hsess]
  · intro m hm _ _
    simpa [msgsOf, hsess] using hm

lemma toolPreserve_appendToolLike (sid cid text kind : String)
    (iA : Option Nat) (τ : Nat) (s : StreamState)
    (h : mapLookup s.toolMessageMap (sid, cid) = some τ) :
    ToolPreserve sid τ s (appendToolLikeMessage s sid cid text kind iA).2 := by
  rw [appendToolLike_hit s sid cid text kind iA τ h]
  refine ⟨rfl, ?_, ?_⟩
  · show roleIds "tool" (storeMsgs (updateMessageContentOp s.sessions sid τ
      (appendLineFun text) s.time) sid) = _
    rw [storeMsgs_contentOp, roleIds_contentUpd]
    rfl
  · intro m hm hr hτ
    have hm' : m ∈ contentUpd τ (appendLineFun text) (msgsOf s sid) := by
      have hms := storeMsgs_contentOp s.sessions sid τ (appendLineFun text) s.time
      simpa [msgsOf, hms] using hm
    exact mem_of_mem_contentUpd _ _ _ _ hm' hτ

lemma toolPreserve_updateToolSummary (sid cid summary kind : String)
    (τ : Nat) (s : StreamState)
    (h : mapLookup s.toolMessageMap (sid, cid) = some τ) :
    ToolPreserve sid τ s (updateToolSummary s sid cid summary kind) := by
  rw [updateToolSummary_hit s sid cid summary kind τ h]
  refine ⟨rfl, ?_, ?_⟩
  · show roleIds "tool" (storeMsgs (updateMessageSummaryOp s.sessions sid τ
      summary s.time) sid) = _
    rw [storeMsgs_summaryOp, roleIds_summaryUpd]
    rfl
  · intro m hm hr hτ
    have hm' : m ∈ summaryUpd τ summary (msgsOf s sid) := by
      have hms := storeMsgs_summaryOp s.sessions sid τ summary s.time
      simpa [msgsOf, hms] using hm
    exact mem_of_mem_summaryUpd _ _ _ _ hm' hτ

lemma toolPreserve_insertAssistant (sid : String) (τ after : Nat)
    (msg : Message) (now : Nat) (s s2 : StreamState)
    (hrole : ¬ msg.role = "tool")
    (hmap : s2.toolMessageMap = s.toolMessageMap)
    (hsess : s2.sessions = insertMessageAfterOp s.sessions sid after msg now) :
    ToolPreserve sid τ s s2 := by
  refine ⟨hmap, ?_, ?_⟩
  · show roleIds "tool" (msgsOf s2 sid) = _
    rw [msgsOf, hsess, storeMsgs_insertOp]
    cases hf : findSession s.sessions sid with
    | none => simp [msgsOf, storeMsgs, hf]
    | some sess =>
      rw [roleIds_insertAfterList _ _ _ _ hrole]
      simp [msgsOf, storeMsgs, hf]
  · intro m hm hr hτ
    rw [msgsOf, hsess, storeMsgs_insertOp] at hm
    cases hf : findSession s.sessions sid with
    | none => rw [hf] at hm; cases hm
    | some sess =>
      rw [hf] at hm
      rcases mem_of_mem_insertAfterList _ _ _ _ hm with h1 | h1
      · simpa [msgsOf, storeMsgs, hf] using h1
      · exfalso; apply hrole; rw [← h1]; exact hr

lemma toolPreserve_split (sid cid kind : String) (τ : Nat) (s : StreamState)
    (h : mapLookup s.toolMessageMap (sid, cid) = some τ) :
    ToolPreserve sid τ s (splitAssistantForTool s sid cid kind) := by
  cases ha : anchorMatches s sid with
  | none =>
    rw [split_no_anchor s sid cid kind ha]
    exact toolPreserve_refl _ _ _
  | some a =>
    cases hc : s.toolSplit.contains cid with
    | true =>
      rw [split_already s sid cid kind a ha hc]
      exact toolPreserve_refl _ _ _
    | false =>
      rw [split_hit s sid cid kind a τ ha hc h]
      exact toolPreserve_insertAssistant sid τ τ
        ⟨s.nextId, "assistant", "text", "", none, none, s.time⟩ s.time s _
        (by simp) rfl rfl

lemma mapLookup_preserved {sid : String} {τ : Nat} {s1 s2 : StreamState}
    (hp : ToolPreserve sid τ s1 s2) (k : String × String)
    (h : mapLookup s1.toolMessageMap k = some τ) :
    mapLookup s2.toolMessageMap k = some τ := by
  rw [hp.1]; exact h

lemma toolPreserve_foldBlocks (ctx : ReqCtx) (cid : String) (τ : Nat)
    (blocks : List ToolBlock) :
    ∀ s : StreamState, mapLookup s.toolMessageMap (ctx.sessionId, cid) = some τ →
      ToolPreserve ctx.sessionId τ s (blocks.foldl (applyToolBlock ctx cid) s) := by
  induction blocks with
  | nil => intro s _; exact toolPreserve_refl _ _ _
  | cons b rest ih =>
    intro s h
    have h1 : ToolPreserve ctx.sessionId τ s (applyToolBlock ctx cid s b) := by
      cases b with
      | text str => exact toolPreserve_appendToolLike _ _ _ _ _ _ _ h
      | diff p => exact toolPreserve_appendToolLike _ _ _ _ _ _ _ h
      | other => exact toolPreserve_refl _ _ _
    have h2 := ih (applyToolBlock ctx cid s b) (mapLookup_preserved h1 _ h)
    simpa [List.foldl_cons] using toolPreserve_trans h1 h2

/-- The call id, if any, carried by an event. -/
def eventCallId : AgentEvent → Option String
  | .tool ev => some ev.callId
  | .permission p => some p.callId
  | _ => none

lemma toolPreserve_appendIf (cond : Bool) (sid cid text kind : String)
    (iA : Option Nat) (τ : Nat) (s : StreamState)
    (h : mapLookup s.toolMessageMap (sid, cid) = some τ) :
    ToolPreserve sid τ s
      (if cond then (appendToolLikeMessage s sid cid text kind iA).2 else s) := by
  cases cond with
  | false => exact toolPreserve_refl _ _ _
  | true =>
    simp only [if_true]
    exact toolPreserve_appendToolLike _ _ _ _ _ _ _ h

lemma toolPreserve_matchErr (o : Option String) (mk : String → String)
    (sid cid kind : String) (iA : Option Nat) (τ : Nat) (s : StreamState)
    (h : mapLookup s.toolMessageMap (sid, cid) = some τ) :
    ToolPreserve sid τ s
      (match o with
       | some e =>
         if e == "" then s else (appendToolLikeMessage s sid cid (mk e) kind iA).2
       | none => s) := by
  cases o with
  | none => exact toolPreserve_refl _ _ _
  | some e =>
    by_cases he : (e == "") = true
    · simp only [he, if_true]; exact toolPreserve_refl _ _ _
    · simp only [he, Bool.false_eq_true, if_false]
      exact toolPreserve_appendToolLike _ _ _ _ _ _ _ h

lemma toolPreserve_branches (ctx : ReqCtx) (cid : String) (τ : Nat)
    (update : ToolUpdate) (data : ToolData) (st : StreamState)
    (h : mapLookup st.toolMessageMap (ctx.sessionId, cid) = some τ) :
    ToolPreserve ctx.sessionId τ st (toolCallBranch ctx cid update st) ∧
    ToolPreserve ctx.sessionId τ st (toolCallUpdateBranch ctx cid update st) ∧
    ToolPreserve ctx.sessionId τ st (execBeginBranch ctx cid data st) ∧
    ToolPreserve ctx.sessionId τ st (execOutputBranch ctx cid data st) ∧
    ToolPreserve ctx.sessionId τ st (execEndBranch ctx cid data st) ∧
    ToolPreserve ctx.sessionId τ st (patchBeginBranch ctx cid st) ∧
    ToolPreserve ctx.sessionId τ st (patchEndBranch ctx cid data st) ∧
    ToolPreserve ctx.sessionId τ st (mcpBeginBranch ctx cid data st) ∧
    ToolPreserve ctx.sessionId τ st (mcpEndBranch ctx cid data st) := by
  have hsplit := toolPreserve_split ctx.sessionId cid "tool" τ st h
  have hsplitmap := mapLookup_preserved hsplit _ h
  refine ⟨?_, ?_, ?_, ?_, ?_, ?_, ?_, ?_, ?_⟩
  · exact toolPreserve_trans hsplit
      (toolPreserve_appendToolLike _ _ _ _ _ _ _ hsplitmap)
  · have hA := toolPreserve_appendIf (statusLineOf update != "") ctx.sessionId cid
      (statusLineOf update) "tool" none τ st h
    have hB := toolPreserve_foldBlocks ctx cid τ update.content _
      (mapLookup_preserved hA _ h)
    have hAB := toolPreserve_trans hA hB
    have hC := toolPreserve_matchErr update.rawOutputError (fun e => e)
      ctx.sessionId cid "tool" none τ _ (mapLookup_preserved hAB _ h)
    exact toolPreserve_trans hAB hC
  · exact toolPreserve_trans hsplit
      (toolPreserve_appendToolLike _ _ _ _ _ _ _ hsplitmap)
  · exact toolPreserve_appendIf _ _ _ _ _ _ _ _ h
  · have hA := toolPreserve_appendToolLike ctx.sessionId cid (execEndFooter data)
      "tool" none τ st h
    have hB := toolPreserve_matchErr data.stderr (fun e => e)
      ctx.sessionId cid "tool" none τ _ (mapLookup_preserved hA _ h)
    exact toolPreserve_trans hA hB
  · have hA := toolPreserve_updateToolSummary ctx.sessionId cid
      (ctx.t "agent.patchApplying") "tool" τ _ hsplitmap
    have hsA := toolPreserve_trans hsplit hA
    have hB := toolPreserve_appendToolLike ctx.sessionId cid
      (ctx.t "agent.patchApplying") "tool" none τ _ (mapLookup_preserved hsA _ h)
    exact toolPreserve_trans hsA hB
  · have hA := toolPreserve_updateToolSummary ctx.sessionId cid
      (patchStatusText ctx.t data) "tool" τ st h
    have hB := toolPreserve_appendToolLike ctx.sessionId cid
      (patchStatusText ctx.t data) "tool" none τ _ (mapLookup_preserved hA _ h)
    have hAB := toolPreserve_trans hA hB
    have hC := toolPreserve_appendIf (!data.appliedChanges.isEmpty) ctx.sessionId cid
      ("applied: " ++ String.intercalate ", " data.appliedChanges) "tool" none τ _
      (mapLookup_preserved hAB _ h)
    have hABC := toolPreserve_trans hAB hC
    have hD := toolPreserve_appendIf (!data.failedChanges.isEmpty) ctx.sessionId cid
      ("failed: " ++ String.intercalate ", " data.failedChanges) "tool" none τ _
      (mapLookup_preserved hABC _ h)
    have hABCD := toolPreserve_trans hABC hD
    have hE := toolPreserve_matchErr data.error (fun e => e)
      ctx.sessionId cid "tool" none τ _ (mapLookup_preserved hABCD _ h)
    exact toolPreserve_trans hABCD hE
  · exact toolPreserve_trans hsplit
      (toolPreserve_appendToolLike _ _ _ _ _ _ _ hsplitmap)
  · exact toolPreserve_matchErr data.error (fun e => "error: " ++ e)
      ctx.sessionId cid "tool" none τ st h

lemma toolPreserve_onTool (ctx : ReqCtx) (ev : ToolEvent) (τ : Nat)
    (st : StreamState)
    (h : mapLookup st.toolMessageMap (ctx.sessionId, ev.callId) = some τ) :
    ToolPreserve ctx.sessionId τ st (onTool ctx st ev) := by
  have hb := toolPreserve_branches ctx ev.callId τ
    (ev.data.update.getD defaultToolUpdate) ev.data st h
  unfold onTool
  by_cases hreq : st.activeRequestId ≠ some ctx.requestId
  · rw [if_pos hreq]; exact toolPreserve_refl _ _ _
  · rw [if_neg hreq]
    by_cases hcid : (ev.callId == "") = true
    · simp only [hcid, if_true]; exact toolPreserve_refl _ _ _
    · simp only [hcid, Bool.false_eq_true, if_false]
      obtain ⟨b1, b2, b3, b4, b5, b6, b7, b8, b9⟩ := hb
      repeat' split
      all_goals
        first
          | exact b1 | exact b2 | exact b3 | exact b4 | exact b5
          | exact b6 | exact b7 | exact b8 | exact b9
          | exact toolPreserve_refl _ _ _

lemma toolPreserve_onPermission (ctx : ReqCtx) (p : PermissionEvent) (τ : Nat)
    (st : StreamState)
    (h : mapLookup st.toolMessageMap (ctx.sessionId, p.callId) = some τ) :
    ToolPreserve ctx.sessionId τ st (onPermission ctx st p) := by
  unfold onPermission
  by_cases hreq : st.activeRequestId ≠ some ctx.requestId
  · rw [if_pos hreq]; exact toolPreserve_refl _ _ _
  · rw [if_neg hreq]
    by_cases hcid : (p.callId == "") = true
    · simp only [hcid, if_true]; exact toolPreserve_refl _ _ _
    · simp only [hcid, Bool.false_eq_true, if_false]
      by_cases hdup : (st.handledPermission.contains (ctx.sessionId, p.callId)) = true
      · simp only [hdup, if_true]; exact toolPreserve_refl _ _ _
      · simp only [hdup, Bool.false_eq_true, if_false]
        have h0 : ToolPreserve ctx.sessionId τ st
            { st with handledPermission := (ctx.sessionId, p.callId) :: st.handledPermission } :=
          toolPreserve_of_frame rfl rfl
        have h1 := toolPreserve_split ctx.sessionId p.callId "tool" τ
          { st with handledPermission := (ctx.sessionId, p.callId) :: st.handledPermission }
          (mapLookup_preserved h0 _ h)
        have h01 := toolPreserve_trans h0 h1
        have h2 := toolPreserve_appendToolLike ctx.sessionId p.callId p.text "tool"
          none τ _ (mapLookup_preserved h01 _ h)
        have h012 := toolPreserve_trans h01 h2
        exact toolPreserve_trans h012 (toolPreserve_of_frame rfl rfl)

/-- Between two states: the active assistant target and the session's
assistant-role message ids are unchanged (no assistant message was opened
or closed). -/
def AsstPreserve (sid : String) (s1 s2 : StreamState) : Prop :=
  s2.activeAssistant = s1.activeAssistant ∧
  roleIds "assistant" (msgsOf s2 sid) = roleIds "assistant" (msgsOf s1 sid)

lemma asstPreserve_refl (sid : String) (s : StreamState) : AsstPreserve sid s s :=
  ⟨rfl, rfl⟩

lemma asstPreserve_trans {sid : String} {s1 s2 s3 : StreamState}
    (h12 : AsstPreserve sid s1 s2) (h23 : AsstPreserve sid s2 s3) :
    AsstPreserve sid s1 s3 :=
  ⟨h23.1.trans h12.1, h23.2.trans h12.2⟩

lemma asstPreserve_of_frame {sid : String} {s1 s2 : StreamState}
    (ha : s2.activeAssistant = s1.activeAssistant)
    (hsess : s2.sessions = s1.sessions) : AsstPreserve sid s1 s2 := by
  exact ⟨ha, by simp [msgsOf, hsess]⟩

lemma roleIds_storeMsgs_insert_tool (store : List Session) (sid : String)
    (after : Nat) (msg : Message) (now : Nat) (h : ¬ msg.role = "assistant") :
    roleIds "assistant" (storeMsgs (insertMessageAfterOp store sid after msg now) sid) =
      roleIds "assistant" (storeMsgs store sid) := by
  rw [storeMsgs_insertOp]
  cases hf : findSession store sid with
  | none => simp [storeMsgs, hf]
  | some s =>
    rw [roleIds_insertAfterList _ _ _ _ h]
    simp [storeMsgs, hf]

lemma roleIds_storeMsgs_append_tool (store : List Session) (sid : String)
    (msg : Message) (now : Nat) (h : ¬ msg.role = "assistant") :
    roleIds "assistant" (storeMsgs (appendMessagesOp store sid [msg] now) sid) =
      roleIds "assistant" (storeMsgs store sid) := by
  rw [storeMsgs_appendOp]
  cases hf : findSession store sid with
  | none => simp [storeMsgs, hf]
  | some s =>
    rw [roleIds_append_one _ _ _ h]
    simp [storeMsgs, hf]

lemma asstPreserve_ensure (st : StreamState) (sid cid header kind : String)
    (iA aId : Option Nat) :
    AsstPreserve sid st (ensureToolMessage st sid cid header kind iA aId).2 := by
  cases hk : mapLookup st.toolMessageMap (sid, cid) with
  | some τ =>
    rw [ensureToolMessage_hit st sid cid header kind iA aId τ hk]
    exact asstPreserve_refl _ _
  | none =>
    cases iA with
    | some a =>
      rw [ensureToolMessage_miss_insert st sid cid header kind a aId hk]
      refine ⟨rfl, ?_⟩
      exact roleIds_storeMsgs_insert_tool st.sessions sid a _ st.time (by simp)
    | none =>
      rw [ensureToolMessage_miss_append st sid cid header kind aId hk]
      refine ⟨rfl, ?_⟩
      exact roleIds_storeMsgs_append_tool st.sessions sid _ st.time (by simp)

lemma asstPreserve_contentOpState (s2 : StreamState) (sid : String) (mid : Nat)
    (f : String → String) (now : Nat) (s3 : StreamState)
    (ha : s3.activeAssistant = s2.activeAssistant)
    (hsess : s3.sessions = updateMessageContentOp s2.sessions sid mid f now) :
    AsstPreserve sid s2 s3 := by
  refine ⟨ha, ?_⟩
  rw [msgsOf, hsess, storeMsgs_contentOp, roleIds_contentUpd]
  rfl

lemma asstPreserve_appendToolLike (st : StreamState) (sid cid text kind : String)
    (iA : Option Nat) :
    AsstPreserve sid st (appendToolLikeMessage st sid cid text kind iA).2 := by
  unfold appendToolLikeMessage
  have h1 := asstPreserve_ensure st sid cid "" kind
    (match iA, anchorMatches st sid with
      | none, some a => (some (a.lastToolId.getD a.assistantMessageId), some a.assistantMessageId)
      | iA', _ => (iA', (none : Option Nat))).1
    ((match iA, anchorMatches st sid with
      | none, some a => (some (a.lastToolId.getD a.assistantMessageId), some a.assistantMessageId)
      | iA', _ => (iA', (none : Option Nat))).2 <|> iA)
  set r := ensureToolMessage st sid cid "" kind
    (match iA, anchorMatches st sid with
      | none, some a => (some (a.lastToolId.getD a.assistantMessageId), some a.assistantMessageId)
      | iA', _ => (iA', (none : Option Nat))).1
    ((match iA, anchorMatches st sid with
      | none, some a => (some (a.lastToolId.getD a.assistantMessageId), some a.assistantMessageId)
      | iA', _ => (iA', (none : Option Nat))).2 <|> iA) with hr
  have h2 : AsstPreserve sid r.2
      (if !(mapLookup st.toolMessageMap (sid, cid)).isSome then
        match anchorMatches r.2 sid with
        | some a => { r.2 with activeToolAnchor := some { a with lastToolId := some r.1 } }
        | none => r.2
      else r.2) := by
    split
    · cases anchorMatches r.2 sid with
      | some a => exact asstPreserve_of_frame rfl rfl
      | none => exact asstPreserve_refl _ _
    · exact asstPreserve_refl _ _
  have h12 := asstPreserve_trans h1 h2
  refine asstPreserve_trans h12 (asstPreserve_contentOpState _ sid r.1
    (appendLineFun text) _ _ rfl rfl)

lemma asstPreserve_updateToolSummary (st : StreamState) (sid cid summary kind : String) :
    AsstPreserve sid st (updateToolSummary st sid cid summary kind) := by
  unfold updateToolSummary
  have h1 := asstPreserve_ensure st sid cid "" kind none none
  refine asstPreserve_trans h1 ?_
  refine ⟨rfl, ?_⟩
  rw [msgsOf, storeMsgs_summaryOp, roleIds_summaryUpd]
  rfl

lemma asstPreserve_appendIf (cond : Bool) (sid cid text kind : String)
    (iA : Option Nat) (s : StreamState) :
    AsstPreserve sid s
      (if cond then (appendToolLikeMessage s sid cid text kind iA).2 else s) := by
  cases cond with
  | false => exact asstPreserve_refl _ _
  | true =>
    simp only [if_true]
    exact asstPreserve_appendToolLike _ _ _ _ _ _

lemma asstPreserve_matchErr (o : Option String) (mk : String → String)
    (sid cid kind : String) (iA : Option Nat) (s : StreamState) :
    AsstPreserve sid s
      (match o with
       | some e =>
         if e == "" then s else (appendToolLikeMessage s sid cid (mk e) kind iA).2
       | none => s) := by
  cases o with
  | none => exact asstPreserve_refl _ _
  | some e =>
    by_cases he : (e == "") = true
    · simp only [he, if_true]; exact asstPreserve_refl _ _
    · simp only [he, Bool.false_eq_true, if_false]
      exact asstPreserve_appendToolLike _ _ _ _ _ _

lemma asstPreserve_foldBlocks (ctx : ReqCtx) (cid : String)
    (blocks : List ToolBlock) :
    ∀ s : StreamState,
      AsstPreserve ctx.sessionId s (blocks.foldl (applyToolBlock ctx cid) s) := by
  induction blocks with
  | nil => intro s; exact asstPreserve_refl _ _
  | cons b rest ih =>
    intro s
    have h1 : AsstPreserve ctx.sessionId s (applyToolBlock ctx cid s b) := by
      cases b with
      | text str => exact asstPreserve_appendToolLike _ _ _ _ _ _
      | diff p => exact asstPreserve_appendToolLike _ _ _ _ _ _
      | other => exact asstPreserve_refl _ _
    simpa [List.foldl_cons] using asstPreserve_trans h1 (ih (applyToolBlock ctx cid s b))

/-- The tool-event kinds whose handler never performs a message split. -/
def nonSplitKind (t : String) : Prop :=
  t = "tool_call_update" ∨ t = "exec_command_output_delta" ∨
  t = "exec_command_end" ∨ t = "patch_apply_end" ∨
  t = "apply_patch_end" ∨ t = "mcp_tool_call_end"

lemma asstPreserve_nonsplit_branches (ctx : ReqCtx) (cid : String)
    (update : ToolUpdate) (data : ToolData) (st : StreamState) :
    AsstPreserve ctx.sessionId st (toolCallUpdateBranch ctx cid update st) ∧
    AsstPreserve ctx.sessionId st (execOutputBranch ctx cid data st) ∧
    AsstPreserve ctx.sessionId st (execEndBranch ctx cid data st) ∧
    AsstPreserve ctx.sessionId st (patchEndBranch ctx cid data st) ∧
    AsstPreserve ctx.sessionId st (mcpEndBranch ctx cid data st) := by
  refine ⟨?_, ?_, ?_, ?_, ?_⟩
  · have hA := asstPreserve_appendIf (statusLineOf update != "") ctx.sessionId cid
      (statusLineOf update) "tool" none st
    have hB := asstPreserve_foldBlocks ctx cid update.content
      (appendIfState (statusLineOf update != "") ctx.sessionId cid
        (statusLineOf update) "tool" none st)
    have hAB := asstPreserve_trans hA hB
    have hC := asstPreserve_matchErr update.rawOutputError (fun e => e)
      ctx.sessionId cid "tool" none
      (update.content.foldl (applyToolBlock ctx cid)
        (appendIfState (statusLineOf update != "") ctx.sessionId cid
          (statusLineOf update) "tool" none st))
    exact asstPreserve_trans hAB hC
  · exact asstPreserve_appendIf _ _ _ _ _ _ _
  · have hA := asstPreserve_appendToolLike st ctx.sessionId cid
      (execEndFooter data) "tool" none
    have hB := asstPreserve_matchErr data.stderr (fun e => e)
      ctx.sessionId cid "tool" none
      ((appendToolLikeMessage st ctx.sessionId cid (execEndFooter data) "tool" none).2)
    exact asstPreserve_trans hA hB
  · have hA := asstPreserve_updateToolSummary st ctx.sessionId cid
      (patchStatusText ctx.t data) "tool"
    have hB := asstPreserve_appendToolLike
      (updateToolSummary st ctx.sessionId cid (patchStatusText ctx.t data) "tool")
      ctx.sessionId cid (patchStatusText ctx.t data) "tool" none
    have hAB := asstPreserve_trans hA hB
    have hC := asstPreserve_appendIf (!data.appliedChanges.isEmpty) ctx.sessionId cid
      ("applied: " ++ String.intercalate ", " data.appliedChanges) "tool" none
      ((appendToolLikeMessage
        (updateToolSummary st ctx.sessionId cid (patchStatusText ctx.t data) "tool")
        ctx.sessionId cid (patchStatusText ctx.t data) "tool" none).2)
    have hABC := asstPreserve_trans hAB hC
    have hD := asstPreserve_appendIf (!data.failedChanges.isEmpty) ctx.sessionId cid
      ("failed: " ++ String.intercalate ", " data.failedChanges) "tool" none
      (appendIfState (!data.appliedChanges.isEmpty) ctx.sessionId cid
        ("applied: " ++ String.intercalate ", " data.appliedChanges) "tool" none
        ((appendToolLikeMessage
          (updateToolSummary st ctx.sessionId cid (patchStatusText ctx.t data) "tool")
          ctx.sessionId cid (patchStatusText ctx.t data) "tool" none).2))
    have hABCD := asstPreserve_trans hABC hD
    have hE := asstPreserve_matchErr data.error (fun e => e)
      ctx.sessionId cid "tool" none
      (appendIfState (!data.failedChanges.isEmpty) ctx.sessionId cid
        ("failed: " ++ String.intercalate ", " data.failedChanges) "tool" none
        (appendIfState (!data.appliedChanges.isEmpty) ctx.sessionId cid
          ("applied: " ++ String.intercalate ", " data.appliedChanges) "tool" none
          ((appendToolLikeMessage
            (updateToolSummary st ctx.sessionId cid (patchStatusText ctx.t data) "tool")
            ctx.sessionId cid (patchStatusText ctx.t data) "tool" none).2)))
    exact asstPreserve_trans hABCD hE
  · exact asstPreserve_matchErr data.error (fun e => "error: " ++ e)
      ctx.sessionId cid "tool" none st

lemma asstPreserve_onTool_nonsplit (ctx : ReqCtx) (ev : ToolEvent)
    (st : StreamState) (htype : nonSplitKind ev.type) :
    AsstPreserve ctx.sessionId st (onTool ctx st ev) := by
  have hb := asstPreserve_nonsplit_branches ctx ev.callId
    (ev.data.update.getD defaultToolUpdate) ev.data st
  obtain ⟨b1, b2, b3, b4, b5⟩ := hb
  unfold onTool
  by_cases hreq : st.activeRequestId ≠ some ctx.requestId
  · rw [if_pos hreq]; exact asstPreserve_refl _ _
  · rw [if_neg hreq]
    by_cases hcid : (ev.callId == "") = true
    · simp only [hcid, if_true]; exact asstPreserve_refl _ _
    · simp only [hcid, Bool.false_eq_true, if_false]
      rcases htype with h | h | h | h | h | h <;>
        simp only [h] <;>
        norm_num <;>
        first
          | exact b1 | exact b2 | exact b3 | exact b4 | exact b5


/-! ### Focused states: a request's session and its targeted assistant -/

/-- A stream state focused on one session (`pre ++ s :: post`, the id
unique) and one message inside it (`m1 ++ am :: m2`, the id unique). -/
structure Focused (ctx : ReqCtx) (st : StreamState) (pre post : List Session)
    (s : Session) (m1 : List Message) (am : Message) (m2 : List Message) : Prop where
  sess : st.sessions = pre ++ s :: post
  sid : s.id = ctx.sessionId
  pre_ne : ∀ x ∈ pre, ¬ x.id = ctx.sessionId
  post_ne : ∀ x ∈ post, ¬ x.id = ctx.sessionId
  msgs : s.messages = m1 ++ am :: m2
  m1_ne : ∀ m ∈ m1, ¬ m.id = am.id
  m2_ne : ∀ m ∈ m2, ¬ m.id = am.id

lemma map_if_id_keep (l : List Session) (sid : String) (h0 : Session → Session)
    (h : ∀ x ∈ l, ¬ x.id = sid) :
    l.map (fun s => if s.id == sid then h0 s else s) = l := by
  induction l with
  | nil => rfl
  | cons x rest ih =>
    have hx : ¬ x.id = sid := h x (List.mem_cons_self x rest)
    have hrest : ∀ y ∈ rest, ¬ y.id = sid := fun y hy => h y (List.mem_cons_of_mem x hy)
    simp only [List.map_cons]
    rw [if_neg (by simpa using hx), ih hrest]

lemma map_if_mid_keep (l : List Message) (mid : Nat) (h0 : Message → Message)
    (h : ∀ x ∈ l, ¬ x.id = mid) :
    l.map (fun m => if m.id == mid then h0 m else m) = l := by
  induction l with
  | nil => rfl
  | cons x rest ih =>
    have hx : ¬ x.id = mid := h x (List.mem_cons_self x rest)
    have hrest : ∀ y ∈ rest, ¬ y.id = mid := fun y hy => h y (List.mem_cons_of_mem x hy)
    simp only [List.map_cons]
    rw [if_neg (by simpa using hx), ih hrest]

lemma updateSession_focused (pre post : List Session) (s : Session)
    (sid : String) (g : Session → Session) (now : Nat) (hsid : s.id = sid)
    (hpre : ∀ x ∈ pre, ¬ x.id = sid) (hpost : ∀ x ∈ post, ¬ x.id = sid) :
    updateSession (pre ++ s :: post) sid g now =
      pre ++ { g s with updatedAt := now } :: post := by
  unfold updateSession
  rw [List.map_append, List.map_cons, map_if_id_keep _ _ _ hpre,
    map_if_id_keep _ _ _ hpost, if_pos (by simpa using hsid)]

lemma contentUpd_focused (x1 : List Message) (τ : Message) (x2 : List Message)
    (f : String → String) (hx1 : ∀ m ∈ x1, ¬ m.id = τ.id)
    (hx2 : ∀ m ∈ x2, ¬ m.id = τ.id) :
    contentUpd τ.id f (x1 ++ τ :: x2) =
      x1 ++ { τ with content := f τ.content } :: x2 := by
  unfold contentUpd
  rw [List.map_append, List.map_cons, map_if_mid_keep _ _ _ hx1,
    map_if_mid_keep _ _ _ hx2, if_pos (by simp)]

lemma summaryUpd_focused (x1 : List Message) (τ : Message) (x2 : List Message)
    (summary : String) (hx1 : ∀ m ∈ x1, ¬ m.id = τ.id)
    (hx2 : ∀ m ∈ x2, ¬ m.id = τ.id) :
    summaryUpd τ.id summary (x1 ++ τ :: x2) =
      x1 ++ { τ with summary := some summary } :: x2 := by
  unfold summaryUpd
  rw [List.map_append, List.map_cons, map_if_mid_keep _ _ _ hx1,
    map_if_mid_keep _ _ _ hx2, if_pos (by simp)]

lemma token_step_focused (ctx : ReqCtx) (st : StreamState) (tok : String)
    (pre post : List Session) (s : Session) (m1 : List Message) (am : Message)
    (m2 : List Message) (hf : Focused ctx st pre post s m1 am m2)
    (h1 : st.stopRequested = false)
    (h2 : st.activeRequestId = some ctx.requestId)
    (h3 : st.activeAssistant = some am.id) :
    step ctx st (.token tok) =
      { st with
        time := st.time + 1
        assistantText := st.assistantText ++ tok
        sessions := pre ++
          { s with
            messages := m1 ++ { am with content := am.content ++ tok } :: m2
            updatedAt := st.time + 1 } :: post } := by
  show onToken ctx { st with time := st.time + 1 } tok = _
  unfold onToken
  rw [if_neg (by simp [h1]), if_neg (by simp [h2])]
  have htarget : ({ st with time := st.time + 1 } : StreamState).activeAssistant.getD
      ctx.assistantMessageId = am.id := by simp [h3]
  simp only [htarget]
  unfold updateMessageContentOp
  have hu := updateSession_focused pre post s ctx.sessionId
    (fun s => { s with messages := contentUpd am.id (fun prev => prev ++ tok) s.messages })
    (st.time + 1) hf.sid hf.pre_ne hf.post_ne
  have hc : contentUpd am.id (fun prev => prev ++ tok) s.messages =
      m1 ++ { am with content := am.content ++ tok } :: m2 := by
    rw [hf.msgs]
    exact contentUpd_focused m1 am m2 _ hf.m1_ne hf.m2_ne
  rw [show ({ st with time := st.time + 1 } : StreamState).sessions = pre ++ s :: post from hf.sess]
  rw [hu]
  simp only [hc]

/-- Concatenation of a list of delta payloads in delivery order. -/
def concatList : List String → String
  | [] => ""
  | d :: rest => d ++ concatList rest

lemma tokens_run (ctx : ReqCtx) (ds : List String) :
    ∀ (st : StreamState) (pre post : List Session) (s : Session)
      (m1 : List Message) (am : Message) (m2 : List Message),
      Focused ctx st pre post s m1 am m2 →
      st.stopRequested = false →
      st.activeRequestId = some ctx.requestId →
      st.activeAssistant = some am.id →
      ∃ t' u',
        applyEvents ctx st (ds.map AgentEvent.token) =
          { st with
            time := t'
            assistantText := st.assistantText ++ concatList ds
            sessions := pre ++
              { s with
                messages := m1 ++ { am with content := am.content ++ concatList ds } :: m2
                updatedAt := u' } :: post } := by
  induction ds with
  | nil =>
    intro st pre post s m1 am m2 hf h1 h2 h3
    refine ⟨st.time, s.updatedAt, ?_⟩
    simp only [List.map_nil, applyEvents, List.foldl_nil, concatList]
    rw [show am.content ++ "" = am.content by simp]
    rw [show ({ am with content := am.content } : Message) = am from rfl]
    rw [← hf.msgs]
    rw [show st.assistantText ++ "" = st.assistantText by simp]
    rw [show ({ s with messages := s.messages, updatedAt := s.updatedAt } : Session) = s from rfl]
    rw [← hf.sess]
  | cons d rest ih =>
    intro st pre post s m1 am m2 hf h1 h2 h3
    have hstep := token_step_focused ctx st d pre post s m1 am m2 hf h1 h2 h3
    set st1 := step ctx st (.token d) with hst1
    have hf1 : Focused ctx st1
        pre post
        { s with messages := m1 ++ { am with content := am.content ++ d } :: m2,
                 updatedAt := st.time + 1 }
        m1 { am with content := am.content ++ d } m2 := by
      refine ⟨?_, ?_, hf.pre_ne, hf.post_ne, ?_, ?_, ?_⟩
      · rw [hstep]
      · exact hf.sid
      · rfl
      · exact hf.m1_ne
      · exact hf.m2_ne
    have h1' : st1.stopRequested = false := by rw [hstep]; exact h1
    have h2' : st1.activeRequestId = some ctx.requestId := by rw [hstep]; exact h2
    have h3' : st1.activeAssistant = some am.id := by rw [hstep]; exact h3
    obtain ⟨t', u', hrest⟩ := ih st1 pre post _ m1 _ m2 hf1 h1' h2' h3'
    refine ⟨t', u', ?_⟩
    have happly : applyEvents ctx st ((d :: rest).map AgentEvent.token) =
        applyEvents ctx st1 (rest.map AgentEvent.token) := by
      simp only [List.map_cons, applyEvents, List.foldl_cons]
    rw [happly, hrest, hstep]
    simp only [concatList, String.append_assoc]

/-- The tool message created by a fresh split, anchored to the assistant
message that was being targeted. -/
def splitToolMsg (st : StreamState) (aid : Nat) : Message :=
  ⟨st.nextId, "tool", "tool", "", none, some aid, st.time⟩

/-- The continuation assistant message opened by a fresh split. -/
def splitContMsg (st : StreamState) : Message :=
  ⟨st.nextId + 1, "assistant", "text", "", none, none, st.time⟩

lemma split_fresh_focused (ctx : ReqCtx) (cid : String) (st : StreamState)
    (pre post : List Session) (s : Session) (m1 : List Message) (am : Message)
    (m2 : List Message) (a : Anchor)
    (hf : Focused ctx st pre post s m1 am m2)
    (hbound : ∀ m ∈ s.messages, m.id < st.nextId)
    (hreq : st.activeRequestId = some ctx.requestId)
    (hasst : st.activeAssistant = some am.id)
    (ha : st.activeToolAnchor = some a) (hasid : a.sessionId = ctx.sessionId)
    (harid : a.requestId = ctx.requestId)
    (hsplitset : st.toolSplit.contains cid = false)
    (hkey : mapLookup st.toolMessageMap (ctx.sessionId, cid) = none) :
    splitAssistantForTool st ctx.sessionId cid "tool" =
      { st with
        expandedThoughts := collapsedThoughts st ctx.sessionId
        toolMessageMap := ((ctx.sessionId, cid), st.nextId) :: st.toolMessageMap
        toolSplit := cid :: st.toolSplit
        nextId := st.nextId + 2
        sessions := pre ++
          { s with
            messages := m1 ++ am :: splitToolMsg st am.id :: splitContMsg st :: m2
            updatedAt := st.time } :: post
        activeAssistant := some (st.nextId + 1)
        activeToolAnchor := some { a with assistantMessageId := st.nextId + 1,
                                          lastToolId := some st.nextId } } := by
  have hmatch : anchorMatches st ctx.sessionId = some a := by
    unfold anchorMatches
    rw [ha]
    simp [hasid, hreq, harid]
  rw [split_fresh st ctx.sessionId cid "tool" a hmatch hsplitset hkey]
  have hcur : st.activeAssistant.getD a.assistantMessageId = am.id := by
    simp [hasst]
  rw [hcur]
  have hins1 : insertMessageAfterOp st.sessions ctx.sessionId am.id
      ⟨st.nextId, "tool", "tool", "", none, some am.id, st.time⟩ st.time =
      pre ++ { s with messages := m1 ++ am :: splitToolMsg st am.id :: m2,
                      updatedAt := st.time } :: post := by
    unfold insertMessageAfterOp
    rw [hf.sess, updateSession_focused pre post s ctx.sessionId _ st.time hf.sid
      hf.pre_ne hf.post_ne]
    have : insertAfterList s.messages am.id
        ⟨st.nextId, "tool", "tool", "", none, some am.id, st.time⟩ =
        m1 ++ am :: splitToolMsg st am.id :: m2 := by
      rw [hf.msgs]
      exact insertAfterList_found m1 am m2 _ hf.m1_ne
    rw [this]
  rw [hins1]
  have hne : ∀ m ∈ m1 ++ [am], ¬ m.id = (splitToolMsg st am.id).id := by
    intro m hm
    rcases List.mem_append.mp hm with h | h
    · have hmem : m ∈ s.messages := by
        rw [hf.msgs]; exact List.mem_append.mpr (Or.inl h)
      have := hbound m hmem
      simp only [splitToolMsg]
      omega
    · have hm' : m = am := by simpa using h
      have hmem : am ∈ s.messages := by
        rw [hf.msgs]
        exact List.mem_append.mpr (Or.inr (List.mem_cons_self _ _))
      have := hbound am hmem
      rw [hm']
      simp only [splitToolMsg]
      omega
  have key : insertAfterList (m1 ++ am :: splitToolMsg st am.id :: m2) st.nextId
      (⟨st.nextId + 1, "assistant", "text", "", none, none, st.time⟩ : Message) =
      m1 ++ am :: splitToolMsg st am.id :: splitContMsg st :: m2 := by
    have h2 := insertAfterList_found (m1 ++ [am]) (splitToolMsg st am.id) m2
      (⟨st.nextId + 1, "assistant", "text", "", none, none, st.time⟩ : Message) hne
    have hid : (splitToolMsg st am.id).id = st.nextId := rfl
    rw [hid] at h2
    have hres : (m1 ++ [am]) ++ splitToolMsg st am.id :: m2 =
        m1 ++ am :: splitToolMsg st am.id :: m2 := by simp
    rw [hres] at h2
    rw [h2]
    simp [splitContMsg]
  have hins2 : insertMessageAfterOp
      (pre ++ { s with messages := m1 ++ am :: splitToolMsg st am.id :: m2,
                       updatedAt := st.time } :: post)
      ctx.sessionId st.nextId ⟨st.nextId + 1, "assistant", "text", "", none, none, st.time⟩
      st.time =
      pre ++ { s with messages := m1 ++ am :: splitToolMsg st am.id :: splitContMsg st :: m2,
                      updatedAt := st.time } :: post := by
    unfold insertMessageAfterOp
    rw [updateSession_focused pre post
      { s with messages := m1 ++ am :: splitToolMsg st am.id :: m2, updatedAt := st.time }
      ctx.sessionId _ st.time hf.sid hf.pre_ne hf.post_ne]
    dsimp only
    rw [key]
  rw [hins2]

lemma contentUpd_mid4 (m1 : List Message) (am τ cm : Message) (m2 : List Message)
    (f : String → String) (h1 : ∀ m ∈ m1, ¬ m.id = τ.id) (ham : ¬ am.id = τ.id)
    (hcm : ¬ cm.id = τ.id) (h2 : ∀ m ∈ m2, ¬ m.id = τ.id) :
    contentUpd τ.id f (m1 ++ am :: τ :: cm :: m2) =
      m1 ++ am :: { τ with content := f τ.content } :: cm :: m2 := by
  unfold contentUpd
  rw [List.map_append, List.map_cons, List.map_cons, List.map_cons,
    map_if_mid_keep _ _ _ h1, map_if_mid_keep _ _ _ h2,
    if_neg (by simpa using ham), if_pos (by simp), if_neg (by simpa using hcm)]

lemma summaryUpd_mid4 (m1 : List Message) (am τ cm : Message) (m2 : List Message)
    (summary : String) (h1 : ∀ m ∈ m1, ¬ m.id = τ.id) (ham : ¬ am.id = τ.id)
    (hcm : ¬ cm.id = τ.id) (h2 : ∀ m ∈ m2, ¬ m.id = τ.id) :
    summaryUpd τ.id summary (m1 ++ am :: τ :: cm :: m2) =
      m1 ++ am :: { τ with summary := some summary } :: cm :: m2 := by
  unfold summaryUpd
  rw [List.map_append, List.map_cons, List.map_cons, List.map_cons,
    map_if_mid_keep _ _ _ h1, map_if_mid_keep _ _ _ h2,
    if_neg (by simpa using ham), if_pos (by simp), if_neg (by simpa using hcm)]

lemma mapLookup_cons_self (m : List ((String × String) × Nat))
    (k : String × String) (v : Nat) : mapLookup ((k, v) :: m) k = some v := by
  simp [mapLookup]

/-- The shape a splitting branch leaves behind: the targeted assistant
message `am` is closed untouched, a tool message with fresh id anchored
to `am` sits right after it, a fresh empty assistant continuation right
after that, the continuation is the new active assistant, and the call
id is now mapped and marked split. -/
def BeginShape (ctx : ReqCtx) (cid : String) (st : StreamState)
    (pre post : List Session) (s : Session) (m1 : List Message) (am : Message)
    (m2 : List Message) (st' : StreamState) : Prop :=
  ∃ τc τs u',
    st'.sessions = pre ++
      { s with
        messages := m1 ++ am ::
          ⟨st.nextId, "tool", "tool", τc, τs, some am.id, st.time⟩ ::
          splitContMsg st :: m2
        updatedAt := u' } :: post ∧
    st'.activeAssistant = some (st.nextId + 1) ∧
    st'.nextId = st.nextId + 2 ∧
    st'.toolMessageMap = ((ctx.sessionId, cid), st.nextId) :: st.toolMessageMap ∧
    st'.toolSplit = cid :: st.toolSplit ∧
    st'.stopRequested = st.stopRequested ∧
    st'.activeRequestId = st.activeRequestId ∧
    st'.activeThought = st.activeThought ∧
    st'.time = st.time

lemma split_append_shape (ctx : ReqCtx) (cid text : String) (st : StreamState)
    (pre post : List Session) (s : Session) (m1 : List Message) (am : Message)
    (m2 : List Message) (a : Anchor)
    (hf : Focused ctx st pre post s m1 am m2)
    (hbound : ∀ m ∈ s.messages, m.id < st.nextId)
    (hreq : st.activeRequestId = some ctx.requestId)
    (hasst : st.activeAssistant = some am.id)
    (ha : st.activeToolAnchor = some a) (hasid : a.sessionId = ctx.sessionId)
    (harid : a.requestId = ctx.requestId)
    (hsplitset : st.toolSplit.contains cid = false)
    (hkey : mapLookup st.toolMessageMap (ctx.sessionId, cid) = none) :
    (appendToolLikeMessage (splitAssistantForTool st ctx.sessionId cid "tool")
      ctx.sessionId cid text "tool" none).2 =
    { splitAssistantForTool st ctx.sessionId cid "tool" with
      sessions := pre ++
        { s with
          messages := m1 ++ am ::
            ⟨st.nextId, "tool", "tool", appendLineFun text "", none, some am.id, st.time⟩ ::
            splitContMsg st :: m2
          updatedAt := st.time } :: post } := by
  have hamm : am ∈ s.messages := by
    rw [hf.msgs]
    exact List.mem_append.mpr (Or.inr (List.mem_cons_self _ _))
  have hτid : (splitToolMsg st am.id).id = st.nextId := rfl
  have h1' : ∀ m ∈ m1, ¬ m.id = (splitToolMsg st am.id).id := by
    intro m hm
    have hmem : m ∈ s.messages := by
      rw [hf.msgs]; exact List.mem_append.mpr (Or.inl hm)
    have := hbound m hmem
    rw [hτid]; omega
  have ham' : ¬ am.id = (splitToolMsg st am.id).id := by
    have := hbound am hamm
    rw [hτid]; omega
  have hcm' : ¬ (splitContMsg st).id = (splitToolMsg st am.id).id := by
    rw [hτid]; simp [splitContMsg]
  have h2' : ∀ m ∈ m2, ¬ m.id = (splitToolMsg st am.id).id := by
    intro m hm
    have hmem : m ∈ s.messages := by
      rw [hf.msgs]
      exact List.mem_append.mpr (Or.inr (List.mem_cons_of_mem _ hm))
    have := hbound m hmem
    rw [hτid]; omega
  have hsp := split_fresh_focused ctx cid st pre post s m1 am m2 a hf hbound hreq
    hasst ha hasid harid hsplitset hkey
  rw [appendToolLike_hit _ _ _ _ _ _ st.nextId (by rw [hsp]; exact mapLookup_cons_self _ _ _)]
  rw [hsp]
  dsimp only
  unfold updateMessageContentOp
  rw [updateSession_focused pre post
    { s with messages := m1 ++ am :: splitToolMsg st am.id :: splitContMsg st :: m2,
             updatedAt := st.time }
    ctx.sessionId _ st.time hf.sid hf.pre_ne hf.post_ne]
  dsimp only
  rw [show contentUpd st.nextId (appendLineFun text)
      (m1 ++ am :: splitToolMsg st am.id :: splitContMsg st :: m2) =
      m1 ++ am :: { splitToolMsg st am.id with content := appendLineFun text "" } ::
        splitContMsg st :: m2 by
    have := contentUpd_mid4 m1 am (splitToolMsg st am.id) (splitContMsg st) m2
      (appendLineFun text) h1' ham' hcm' h2'
    rw [hτid] at this
    exact this]
  rfl

lemma onPermission_fresh_shape (ctx : ReqCtx) (p : PermissionEvent)
    (st : StreamState) (pre post : List Session) (s : Session)
    (m1 : List Message) (am : Message) (m2 : List Message) (a : Anchor)
    (hf : Focused ctx st pre post s m1 am m2)
    (hbound : ∀ m ∈ s.messages, m.id < st.nextId)
    (hreq : st.activeRequestId = some ctx.requestId)
    (hasst : st.activeAssistant = some am.id)
    (ha : st.activeToolAnchor = some a) (hasid : a.sessionId = ctx.sessionId)
    (harid : a.requestId = ctx.requestId)
    (hsplitset : st.toolSplit.contains p.callId = false)
    (hkey : mapLookup st.toolMessageMap (ctx.sessionId, p.callId) = none)
    (hpcid : (p.callId == "") = false)
    (hdup : st.handledPermission.contains (ctx.sessionId, p.callId) = false) :
    BeginShape ctx p.callId st pre post s m1 am m2 (onPermission ctx st p) ∧
    (onPermission ctx st p).handledPermission =
      (ctx.sessionId, p.callId) :: st.handledPermission ∧
    (onPermission ctx st p).dialog = some ⟨ctx.sessionId, p.callId⟩ ∧
    (onPermission ctx st p).prompts = st.prompts ++ [⟨ctx.sessionId, p.callId⟩] ∧
    (onPermission ctx st p).acks = st.acks := by
  unfold onPermission
  rw [if_neg (by simp [hreq])]
  simp only [hpcid, Bool.false_eq_true, if_false, hdup]
  have hf1 : Focused ctx
      { st with handledPermission := (ctx.sessionId, p.callId) :: st.handledPermission }
      pre post s m1 am m2 :=
    ⟨hf.sess, hf.sid, hf.pre_ne, hf.post_ne, hf.msgs, hf.m1_ne, hf.m2_ne⟩
  have happ := split_append_shape ctx p.callId p.text
    { st with handledPermission := (ctx.sessionId, p.callId) :: st.handledPermission }
    pre post s m1 am m2 a hf1 hbound hreq hasst ha hasid harid hsplitset hkey
  rw [happ]
  rw [split_fresh_focused ctx p.callId
    { st with handledPermission := (ctx.sessionId, p.callId) :: st.handledPermission }
    pre post s m1 am m2 a hf1 hbound hreq hasst ha hasid harid hsplitset hkey]
  refine ⟨⟨appendLineFun p.text "", none, st.time, ?_, ?_, ?_, ?_, ?_, ?_, ?_, ?_, ?_⟩, ?_, ?_, ?_, ?_⟩ <;>
    first
      | rfl
      | trivial

lemma beginBranches_shape (ctx : ReqCtx) (cid : String) (update : ToolUpdate)
    (data : ToolData) (st : StreamState) (pre post : List Session) (s : Session)
    (m1 : List Message) (am : Message) (m2 : List Message) (a : Anchor)
    (hf : Focused ctx st pre post s m1 am m2)
    (hbound : ∀ m ∈ s.messages, m.id < st.nextId)
    (hreq : st.activeRequestId = some ctx.requestId)
    (hasst : st.activeAssistant = some am.id)
    (ha : st.activeToolAnchor = some a) (hasid : a.sessionId = ctx.sessionId)
    (harid : a.requestId = ctx.requestId)
    (hsplitset : st.toolSplit.contains cid = false)
    (hkey : mapLookup st.toolMessageMap (ctx.sessionId, cid) = none) :
    BeginShape ctx cid st pre post s m1 am m2 (toolCallBranch ctx cid update st) ∧
    BeginShape ctx cid st pre post s m1 am m2 (execBeginBranch ctx cid data st) ∧
    BeginShape ctx cid st pre post s m1 am m2 (patchBeginBranch ctx cid st) ∧
    BeginShape ctx cid st pre post s m1 am m2 (mcpBeginBranch ctx cid data st) := by
  have ham : am ∈ s.messages := by
    rw [hf.msgs]
    exact List.mem_append.mpr (Or.inr (List.mem_cons_self _ _))
  have hamlt := hbound am ham
  have hτid : (splitToolMsg st am.id).id = st.nextId := rfl
  have h1' : ∀ m ∈ m1, ¬ m.id = (splitToolMsg st am.id).id := by
    intro m hm
    have hmem : m ∈ s.messages := by
      rw [hf.msgs]; exact List.mem_append.mpr (Or.inl hm)
    have := hbound m hmem
    rw [hτid]; omega
  have ham' : ¬ am.id = (splitToolMsg st am.id).id := by rw [hτid]; omega
  have hcm' : ¬ (splitContMsg st).id = (splitToolMsg st am.id).id := by
    rw [hτid]; simp [splitContMsg]
  have h2' : ∀ m ∈ m2, ¬ m.id = (splitToolMsg st am.id).id := by
    intro m hm
    have hmem : m ∈ s.messages := by
      rw [hf.msgs]
      exact List.mem_append.mpr (Or.inr (List.mem_cons_of_mem _ hm))
    have := hbound m hmem
    rw [hτid]; omega
  have hsp := split_fresh_focused ctx cid st pre post s m1 am m2 a hf hbound hreq
    hasst ha hasid harid hsplitset hkey
  have happend : ∀ text : String,
      (appendToolLikeMessage (splitAssistantForTool st ctx.sessionId cid "tool")
        ctx.sessionId cid text "tool" none).2 =
      { splitAssistantForTool st ctx.sessionId cid "tool" with
        sessions := pre ++
          { s with
            messages := m1 ++ am ::
              ⟨st.nextId, "tool", "tool", appendLineFun text "", none, some am.id, st.time⟩ ::
              splitContMsg st :: m2
            updatedAt := st.time } :: post } := by
    intro text
    rw [appendToolLike_hit _ _ _ _ _ _ st.nextId (by rw [hsp]; exact mapLookup_cons_self _ _ _)]
    rw [hsp]
    dsimp only
    unfold updateMessageContentOp
    rw [updateSession_focused pre post
      { s with messages := m1 ++ am :: splitToolMsg st am.id :: splitContMsg st :: m2,
               updatedAt := st.time }
      ctx.sessionId _ st.time hf.sid hf.pre_ne hf.post_ne]
    dsimp only
    rw [show contentUpd st.nextId (appendLineFun text)
        (m1 ++ am :: splitToolMsg st am.id :: splitContMsg st :: m2) =
        m1 ++ am :: { splitToolMsg st am.id with content := appendLineFun text "" } ::
          splitContMsg st :: m2 by
      have := contentUpd_mid4 m1 am (splitToolMsg st am.id) (splitContMsg st) m2
        (appendLineFun text) h1' ham' hcm' h2'
      rw [hτid] at this
      exact this]
    rfl
  refine ⟨?_, ?_, ?_, ?_⟩
  · unfold toolCallBranch
    rw [happend (toolCallText update)]
    rw [hsp]
    exact ⟨appendLineFun (toolCallText update) "", none, st.time,
      rfl, rfl, rfl, rfl, rfl, rfl, rfl, rfl, rfl⟩
  · unfold execBeginBranch
    rw [happend (execBeginText data)]
    rw [hsp]
    exact ⟨appendLineFun (execBeginText data) "", none, st.time,
      rfl, rfl, rfl, rfl, rfl, rfl, rfl, rfl, rfl⟩
  · unfold patchBeginBranch
    have hsum : updateToolSummary (splitAssistantForTool st ctx.sessionId cid "tool")
        ctx.sessionId cid (ctx.t "agent.patchApplying") "tool" =
        { splitAssistantForTool st ctx.sessionId cid "tool" with
          sessions := pre ++
            { s with
              messages := m1 ++ am ::
                { splitToolMsg st am.id with summary := some (ctx.t "agent.patchApplying") } ::
                splitContMsg st :: m2
              updatedAt := st.time } :: post } := by
      rw [updateToolSummary_hit _ _ _ _ _ st.nextId
        (by rw [hsp]; exact mapLookup_cons_self _ _ _)]
      rw [hsp]
      dsimp only
      unfold updateMessageSummaryOp
      rw [updateSession_focused pre post
        { s with messages := m1 ++ am :: splitToolMsg st am.id :: splitContMsg st :: m2,
                 updatedAt := st.time }
        ctx.sessionId _ st.time hf.sid hf.pre_ne hf.post_ne]
      dsimp only
      rw [show summaryUpd st.nextId (ctx.t "agent.patchApplying")
          (m1 ++ am :: splitToolMsg st am.id :: splitContMsg st :: m2) =
          m1 ++ am :: { splitToolMsg st am.id with summary := some (ctx.t "agent.patchApplying") } ::
            splitContMsg st :: m2 by
        have := summaryUpd_mid4 m1 am (splitToolMsg st am.id) (splitContMsg st) m2
          (ctx.t "agent.patchApplying") h1' ham' hcm' h2'
        rw [hτid] at this
        exact this]
    rw [hsum]
    have hmap2 : mapLookup ({ splitAssistantForTool st ctx.sessionId cid "tool" with
        sessions := pre ++
          { s with
            messages := m1 ++ am ::
              { splitToolMsg st am.id with summary := some (ctx.t "agent.patchApplying") } ::
              splitContMsg st :: m2
            updatedAt := st.time } :: post } : StreamState).toolMessageMap
        (ctx.sessionId, cid) = some st.nextId := by
      rw [hsp]
      exact mapLookup_cons_self _ _ _
    rw [appendToolLike_hit _ _ _ _ _ _ st.nextId hmap2]
    dsimp only
    rw [hsp]
    dsimp only
    unfold updateMessageContentOp
    rw [updateSession_focused pre post
      { s with
        messages := m1 ++ am ::
          { splitToolMsg st am.id with summary := some (ctx.t "agent.patchApplying") } ::
          splitContMsg st :: m2
        updatedAt := st.time }
      ctx.sessionId _ st.time hf.sid hf.pre_ne hf.post_ne]
    dsimp only
    rw [show contentUpd st.nextId (appendLineFun (ctx.t "agent.patchApplying"))
        (m1 ++ am :: { splitToolMsg st am.id with summary := some (ctx.t "agent.patchApplying") } ::
          splitContMsg st :: m2) =
        m1 ++ am ::
          ⟨st.nextId, "tool", "tool", appendLineFun (ctx.t "agent.patchApplying") "",
            some (ctx.t "agent.patchApplying"), some am.id, st.time⟩ ::
          splitContMsg st :: m2 by
      have := contentUpd_mid4 m1 am
        { splitToolMsg st am.id with summary := some (ctx.t "agent.patchApplying") }
        (splitContMsg st) m2 (appendLineFun (ctx.t "agent.patchApplying"))
        h1' ham' hcm' h2'
      rw [show ({ splitToolMsg st am.id with
          summary := some (ctx.t "agent.patchApplying") } : Message).id = st.nextId from rfl] at this
      exact this]
    refine ⟨appendLineFun (ctx.t "agent.patchApplying") "",
      some (ctx.t "agent.patchApplying"), st.time, rfl, rfl, rfl, rfl, rfl, rfl, rfl, rfl, rfl⟩
  · unfold mcpBeginBranch
    rw [happend (mcpBeginText ctx.t data)]
    rw [hsp]
    exact ⟨appendLineFun (mcpBeginText ctx.t data) "", none, st.time,
      rfl, rfl, rfl, rfl, rfl, rfl, rfl, rfl, rfl⟩

/-! ### Extraction helpers: reading a focused store back -/

lemma findSession_focused (pre post : List Session) (s : Session) (sid : String)
    (hsid : s.id = sid) (hpre : ∀ x ∈ pre, ¬ x.id = sid) :
    findSession (pre ++ s :: post) sid = some s := by
  unfold findSession
  induction pre with
  | nil =>
    simp only [List.nil_append]
    exact List.find?_cons_of_pos _ (by simpa using hsid)
  | cons x rest ih =>
    have hx : ¬ x.id = sid := hpre x (List.mem_cons_self x rest)
    simp only [List.cons_append]
    rw [List.find?_cons_of_neg _ (by simpa using hx)]
    exact ih fun y hy => hpre y (List.mem_cons_of_mem x hy)

lemma msgsOf_focused (st' : StreamState) (sid : String) (pre post : List Session)
    (s : Session) (hsid : s.id = sid) (hpre : ∀ x ∈ pre, ¬ x.id = sid)
    (hsess : st'.sessions = pre ++ s :: post) :
    msgsOf st' sid = s.messages := by
  unfold msgsOf storeMsgs
  rw [hsess, findSession_focused pre post s sid hsid hpre]

lemma getMsg_focused (st' : StreamState) (sid : String) (pre post : List Session)
    (s : Session) (m1 : List Message) (am : Message) (m2 : List Message)
    (hsid : s.id = sid) (hpre : ∀ x ∈ pre, ¬ x.id = sid)
    (hsess : st'.sessions = pre ++ s :: post)
    (hmsgs : s.messages = m1 ++ am :: m2)
    (hm1 : ∀ m ∈ m1, ¬ m.id = am.id) :
    getMsg st' sid am.id = some am := by
  unfold getMsg storeMsgs
  rw [hsess, findSession_focused pre post s sid hsid hpre]
  show List.find? (fun m => m.id == am.id) s.messages = some am
  rw [hmsgs, List.find?_append,
    List.find?_eq_none.mpr (fun x hx => by simpa using hm1 x hx)]
  simp [List.find?_cons]

lemma msgContent_focused (st' : StreamState) (sid : String) (pre post : List Session)
    (s : Session) (m1 : List Message) (am : Message) (m2 : List Message)
    (hsid : s.id = sid) (hpre : ∀ x ∈ pre, ¬ x.id = sid)
    (hsess : st'.sessions = pre ++ s :: post)
    (hmsgs : s.messages = m1 ++ am :: m2)
    (hm1 : ∀ m ∈ m1, ¬ m.id = am.id) :
    msgContent st' sid am.id = some am.content := by
  unfold msgContent
  rw [getMsg_focused st' sid pre post s m1 am m2 hsid hpre hsess hmsgs hm1]
  rfl

/-! ### Stop suppression (`handleStop` and the delta callbacks) -/

lemma handleStop_parts (st : StreamState) (sid : String) :
    (handleStop st (some sid)).sessions =
      updateSession st.sessions sid
        (fun s => { s with status := "disconnected" }) st.time ∧
    (handleStop st (some sid)).stopRequested = true ∧
    (handleStop st (some sid)).activeRequestId = none := by
  unfold handleStop
  cases hA : st.activeRequestId <;> simp [hA]

lemma stopped_delta_step (ctx : ReqCtx) (st : StreamState) (e : AgentEvent)
    (h1 : st.stopRequested = true) (h2 : st.activeRequestId = none)
    (he : (∃ d, e = AgentEvent.token d) ∨ (∃ d, e = AgentEvent.reasoning d)) :
    step ctx st e = { st with time := st.time + 1 } := by
  rcases he with ⟨d, rfl⟩ | ⟨d, rfl⟩
  · show onToken ctx { st with time := st.time + 1 } d = _
    unfold onToken
    rw [if_pos h1]
  · show onReasoning ctx { st with time := st.time + 1 } d = _
    unfold onReasoning
    rw [if_pos (by simp [h2])]

lemma stopped_delta_run (ctx : ReqCtx) :
    ∀ (evs : List AgentEvent) (st : StreamState),
      st.stopRequested = true → st.activeRequestId = none →
      (∀ e ∈ evs, (∃ d, e = AgentEvent.token d) ∨ (∃ d, e = AgentEvent.reasoning d)) →
      applyEvents ctx st evs = { st with time := st.time + evs.length } := by
  intro evs
  induction evs with
  | nil =>
    intro st _ _ _
    rfl
  | cons e rest ih =>
    intro st h1 h2 hall
    have hstep := stopped_delta_step ctx st e h1 h2 (hall e (List.mem_cons_self e rest))
    show applyEvents ctx (step ctx st e) rest = _
    rw [hstep, ih { st with time := st.time + 1 } h1 h2
      (fun x hx => hall x (List.mem_cons_of_mem e hx))]
    simp only [List.length_cons]
    rw [show st.time + 1 + rest.length = st.time + (rest.length + 1) from by omega]

/-! ### Acknowledgement accounting for the permission dialog -/

/-- Acknowledgements already sent for the dialog key `k`. -/
def ackCount (k : DialogSpec) (st : StreamState) : Nat :=
  (st.acks.filter (fun e => e.1 == k)).length

/-- Sent acknowledgements plus a pending open dialog for `k`: an upper
bound on how many acknowledgements for `k` can ever exist. -/
def ackMeasure (k : DialogSpec) (st : StreamState) : Nat :=
  ackCount k st + (if st.dialog = some k then 1 else 0)

lemma ackCount_le_ackMeasure (k : DialogSpec) (st : StreamState) :
    ackCount k st ≤ ackMeasure k st :=
  Nat.le_add_right _ _

lemma resolveDialog_measure (k : DialogSpec) (st : StreamState) (d : Bool) :
    ackMeasure k (resolveDialog st d) ≤ ackMeasure k st := by
  unfold resolveDialog
  cases hd : st.dialog with
  | none => exact Nat.le_refl _
  | some ds =>
    unfold ackMeasure ackCount
    dsimp only
    rw [List.filter_append, hd]
    by_cases hk : ds = k
    · subst hk
      simp [List.filter_cons]
    · have hne : ((ds, d).1 == k) = false := by simpa using hk
      simp [List.filter_cons, hne, hk]

lemma resolveAll_measure (k : DialogSpec) :
    ∀ (ds : List Bool) (st : StreamState),
      ackMeasure k (resolveAll st ds) ≤ ackMeasure k st := by
  intro ds
  induction ds with
  | nil => intro st; exact Nat.le_refl _
  | cons d rest ih =>
    intro st
    exact Nat.le_trans (ih (resolveDialog st d)) (resolveDialog_measure k st d)

/-! ### The splitting tool kinds -/

/-- The tool-event kinds whose handler runs `splitAssistantForTool`. -/
def splitKind (t : String) : Prop :=
  t = "tool_call" ∨ t = "exec_command_begin" ∨ t = "patch_apply_begin" ∨
  t = "apply_patch_begin" ∨ t = "mcp_tool_call_begin"

lemma onTool_begin_shape (ctx : ReqCtx) (ev : ToolEvent) (st : StreamState)
    (pre post : List Session) (s : Session) (m1 : List Message) (am : Message)
    (m2 : List Message) (a : Anchor)
    (hf : Focused ctx st pre post s m1 am m2)
    (hbound : ∀ m ∈ s.messages, m.id < st.nextId)
    (hreq : st.activeRequestId = some ctx.requestId)
    (hasst : st.activeAssistant = some am.id)
    (ha : st.activeToolAnchor = some a) (hasid : a.sessionId = ctx.sessionId)
    (harid : a.requestId = ctx.requestId)
    (hsplitset : st.toolSplit.contains ev.callId = false)
    (hkey : mapLookup st.toolMessageMap (ctx.sessionId, ev.callId) = none)
    (hpcid : (ev.callId == "") = false)
    (htype : splitKind ev.type) :
    BeginShape ctx ev.callId st pre post s m1 am m2 (onTool ctx st ev) := by
  have hb := beginBranches_shape ctx ev.callId (ev.data.update.getD defaultToolUpdate)
    ev.data st pre post s m1 am m2 a hf hbound hreq hasst ha hasid harid hsplitset hkey
  obtain ⟨b1, b2, b3, b4⟩ := hb
  unfold onTool
  rw [if_neg (by simp [hreq])]
  simp only [hpcid, Bool.false_eq_true, if_false]
  rcases htype with h | h | h | h | h <;>
    simp only [h] <;>
    norm_num <;>
    first
      | exact b1 | exact b2 | exact b3 | exact b4

lemma toolPreserve_step (ctx : ReqCtx) (st : StreamState) (e : AgentEvent)
    (c : String) (τ : Nat) (hc : eventCallId e = some c)
    (h : mapLookup st.toolMessageMap (ctx.sessionId, c) = some τ) :
    ToolPreserve ctx.sessionId τ st (step ctx st e) := by
  have htick : ToolPreserve ctx.sessionId τ st { st with time := st.time + 1 } :=
    toolPreserve_of_frame rfl rfl
  cases e with
  | token s => cases hc
  | reasoning s => cases hc
  | status s => cases hc
  | tool ev =>
    have hev : ev.callId = c := by simpa [eventCallId] using hc
    refine toolPreserve_trans htick ?_
    exact toolPreserve_onTool ctx ev τ _ (by rw [hev]; exact h)
  | permission p =>
    have hev : p.callId = c := by simpa [eventCallId] using hc
    refine toolPreserve_trans htick ?_
    exact toolPreserve_onPermission ctx p τ _ (by rw [hev]; exact h)

lemma beginShape_tokens (ctx : ReqCtx) (cid : String) (stT : StreamState)
    (pre post : List Session) (s : Session) (m1 : List Message) (am : Message)
    (m2 : List Message) (stE : StreamState)
    (hbs : BeginShape ctx cid stT pre post s m1 am m2 stE)
    (hsid : s.id = ctx.sessionId)
    (hpre : ∀ x ∈ pre, ¬ x.id = ctx.sessionId)
    (hpost : ∀ x ∈ post, ¬ x.id = ctx.sessionId)
    (hm1lt : ∀ m ∈ m1, m.id < stT.nextId)
    (hm1ne : ∀ m ∈ m1, ¬ m.id = am.id)
    (hamlt : am.id < stT.nextId)
    (hm2lt : ∀ m ∈ m2, m.id < stT.nextId)
    (hstop : stT.stopRequested = false)
    (hreq : stT.activeRequestId = some ctx.requestId)
    (ds2 : List String) :
    msgContent (applyEvents ctx stE (ds2.map AgentEvent.token)) ctx.sessionId am.id =
      some am.content ∧
    msgContent (applyEvents ctx stE (ds2.map AgentEvent.token)) ctx.sessionId
      (stT.nextId + 1) = some (concatList ds2) ∧
    stE.activeAssistant = some (stT.nextId + 1) ∧
    ¬ stT.nextId + 1 = am.id := by
  obtain ⟨τc, τs, u', hsess, hact, hnid, hmap, hsplit, hstopE, hreqE, hth, htimeE⟩ := hbs
  set τm : Message := ⟨stT.nextId, "tool", "tool", τc, τs, some am.id, stT.time⟩ with hτm
  have hτid : τm.id = stT.nextId := rfl
  have hcmid : (splitContMsg stT).id = stT.nextId + 1 := rfl
  have hf2 : Focused ctx stE pre post
      { s with messages := m1 ++ am :: τm :: splitContMsg stT :: m2, updatedAt := u' }
      (m1 ++ [am, τm]) (splitContMsg stT) m2 := by
    refine ⟨?_, hsid, hpre, hpost, ?_, ?_, ?_⟩
    · rw [hsess]
    · dsimp only
      simp [List.append_assoc]
    · intro m hm
      rw [hcmid]
      rcases List.mem_append.mp hm with h | h
      · have := hm1lt m h
        omega
      · rcases List.mem_cons.mp h with rfl | h2
        · omega
        · rcases List.mem_cons.mp h2 with rfl | h3
          · rw [hτid]
            omega
          · cases h3
    · intro m hm
      rw [hcmid]
      have := hm2lt m hm
      omega
  have hstE : stE.stopRequested = false := by rw [hstopE]; exact hstop
  have hreqE2 : stE.activeRequestId = some ctx.requestId := by rw [hreqE]; exact hreq
  have hastE : stE.activeAssistant = some (splitContMsg stT).id := by rw [hact]; rfl
  obtain ⟨t', u'', hrun⟩ := tokens_run ctx ds2 stE pre post _ (m1 ++ [am, τm])
    (splitContMsg stT) m2 hf2 hstE hreqE2 hastE
  refine ⟨?_, ?_, hact, by omega⟩
  · exact msgContent_focused _ ctx.sessionId pre post
      { s with
        messages := (m1 ++ [am, τm]) ++
          { splitContMsg stT with
            content := (splitContMsg stT).content ++ concatList ds2 } :: m2
        updatedAt := u'' }
      m1 am
      (τm :: { splitContMsg stT with
        content := (splitContMsg stT).content ++ concatList ds2 } :: m2)
      hsid hpre (by rw [hrun]) (by simp [List.append_assoc]) hm1ne
  · exact msgContent_focused _ ctx.sessionId pre post
      { s with
        messages := (m1 ++ [am, τm]) ++
          { splitContMsg stT with
            content := (splitContMsg stT).content ++ concatList ds2 } :: m2
        updatedAt := u'' }
      (m1 ++ [am, τm])
      { splitContMsg stT with
        content := (splitContMsg stT).content ++ concatList ds2 } m2
      hsid hpre (by rw [hrun]) rfl hf2.m1_ne

/-- A permission event whose key is already in the handled set (or that
arrived for the live request a second time) leaves the state untouched. -/
lemma onPermission_handled (ctx : ReqCtx) (st : StreamState) (p : PermissionEvent)
    (hreq : st.activeRequestId = some ctx.requestId)
    (hhandled : st.handledPermission.contains (ctx.sessionId, p.callId) = true) :
    onPermission ctx st p = st := by
  unfold onPermission
  rw [if_neg (by simp [hreq])]
  by_cases hc : (p.callId == "") = true
  · simp [hc]
  · simp only [hc, Bool.false_eq_true, if_false]
    rw [if_pos hhandled]

/-- Content update of one message inside a one-session store. -/
lemma updateMessageContentOp_single (s : Session) (sid : String) (mid : Nat)
    (f : String → String) (now : Nat) (m1 : List Message) (τ : Message)
    (m2 : List Message) (hsid : s.id = sid) (hmsgs : s.messages = m1 ++ τ :: m2)
    (hτ : τ.id = mid) (h1 : ∀ m ∈ m1, ¬ m.id = mid) (h2 : ∀ m ∈ m2, ¬ m.id = mid) :
    updateMessageContentOp [s] sid mid f now =
      [{ s with messages := m1 ++ { τ with content := f τ.content } :: m2,
                updatedAt := now }] := by
  subst hτ
  show updateMessageContentOp ([] ++ s :: []) sid τ.id f now = [] ++ _ :: []
  unfold updateMessageContentOp
  rw [updateSession_focused [] [] s sid
    (fun s => { s with messages := contentUpd τ.id f s.messages }) now hsid
    (by simp) (by simp)]
  rw [hmsgs, contentUpd_focused m1 τ m2 f h1 h2]

/-- One `runOcCommand` append evaluated on a one-session store whose
call id is already mapped to the tool message `τm`. -/
lemma appendOcLine_single (st : StreamState) (sid cid kind text : String)
    (τ : Nat) (s : Session) (m1 : List Message) (τm : Message) (m2 : List Message)
    (hmap : mapLookup st.toolMessageMap (sid, cid) = some τ)
    (hsess : st.sessions = [s]) (hsid : s.id = sid)
    (hmsgs : s.messages = m1 ++ τm :: m2) (hτ : τm.id = τ)
    (h1 : ∀ m ∈ m1, ¬ m.id = τ) (h2 : ∀ m ∈ m2, ¬ m.id = τ) :
    appendOcLine st sid cid kind none text =
      { st with sessions := [{ s with
          messages := m1 ++ { τm with content := appendLineFun text τm.content } :: m2,
          updatedAt := st.time }] } := by
  unfold appendOcLine
  rw [appendToolLike_hit st sid cid text kind none τ hmap]
  dsimp only
  rw [hsess,
    updateMessageContentOp_single s sid τ (appendLineFun text) st.time m1 τm m2
      hsid hmsgs hτ h1 h2]

/-- A string with a nonempty left part is nonempty. -/
lemma append_beq_empty_false (a b : String) (ha : (a == "") = false) :
    ((a ++ b) == "") = false := by
  have ha2 : ¬ a = "" := by simpa using ha
  have h : ¬ (a ++ b) = "" := by
    intro he
    apply ha2
    have h2 := congrArg String.data he
    rw [String.data_append] at h2
    rcases List.append_eq_nil.mp h2 with ⟨h3, _⟩
    cases a with
    | mk d =>
      simp only at h3
      rw [h3]
  simpa using h

/-- JS `!=` against the empty string from the `==` fact. -/
lemma bne_empty_true (a : String) (h : (a == "") = false) : (a != "") = true := by
  have h2 : a ≠ "" := by simpa using h
  simpa using h2

/-! ### Concrete fixtures used by witnesses and counterexamples -/

/-- A user message of a small demonstration session. -/
def egU : Message := ⟨1, "user", "text", "hello", none, none, 0⟩

/-- The placeholder assistant message of the demonstration request. -/
def egA : Message := ⟨2, "assistant", "text", "", none, none, 0⟩

/-- An unrelated tool message used as insertion payload. -/
def egT : Message := ⟨9, "tool", "tool", "x", none, none, 3⟩

/-- The demonstration session right after the request wiring ran. -/
def egSession : Session := ⟨"s1", "connected", "codex", "Codex", [egU, egA], 0⟩

/-- The per-request tool anchor of the demonstration request. -/
def egAnchor : Anchor := ⟨7, "s1", 2, none⟩

/-- The per-request thought ref of the demonstration request. -/
def egThought : ThoughtRef := ⟨7, "s1", none, 1⟩

/-- The request context of the demonstration request (identity i18n). -/
def egCtx : ReqCtx := ⟨"s1", 7, 2, fun k => k, fun m => m⟩

/-- The demonstration stream state: one session, request 7 live, the
placeholder assistant message 2 targeted, fresh id counter at 3. -/
def egSt : StreamState :=
  ⟨[egSession], 3, 0, some 7, false, [], some egAnchor, some egThought, some 2,
   [], [], [], true, some "s1", "", "", none, [], [], []⟩

/-! ### The claims -/

/-- Claim C10: every session-store mutator (updateSession, appendMessages,
updateMessageContent, updateMessageSummary, insertMessageAfter) invoked
with a sessionId that is not present in the store leaves the entire
sessions list unchanged: no session is created, modified, or timestamped. -/
theorem claim_c10_absent_session_noop (store : List Session) (sid : String)
    (g : Session → Session) (msgs : List Message) (mid afterId : Nat)
    (f : String → String) (summary : String) (msg : Message) (now : Nat)
    (habs : ∀ s ∈ store, ¬ s.id = sid) :
    updateSession store sid g now = store ∧
    appendMessagesOp store sid msgs now = store ∧
    updateMessageContentOp store sid mid f now = store ∧
    updateMessageSummaryOp store sid mid summary now = store ∧
    insertMessageAfterOp store sid afterId msg now = store :=
  ⟨updateSession_absent store sid g now habs,
   updateSession_absent store sid _ now habs,
   updateSession_absent store sid _ now habs,
   updateSession_absent store sid _ now habs,
   updateSession_absent store sid _ now habs⟩

/-- Claim C10 witness: the five mutators at a store without the session. -/
theorem claim_c10_witness :
    updateSession [egSession] "nope" (fun s => s) 5 = [egSession] ∧
    appendMessagesOp [egSession] "nope" [egT] 5 = [egSession] ∧
    updateMessageContentOp [egSession] "nope" 1 (fun c => c) 5 = [egSession] ∧
    updateMessageSummaryOp [egSession] "nope" 1 "x" 5 = [egSession] ∧
    insertMessageAfterOp [egSession] "nope" 1 egT 5 = [egSession] :=
  claim_c10_absent_session_noop [egSession] "nope" (fun s => s) [egT] 1 1
    (fun c => c) "x" egT 5 (by decide)

/-- Claim C9 counterexample: updating the content of a message id that is
absent from the session is not a full no-op on the session: the message
list is unchanged but the session record itself is re-stamped
(`updatedAt` becomes the mutation time), so the store differs. -/
theorem claim_c9_counterexample :
    updateMessageContentOp [egSession] "s1" 99 (fun c => c ++ "!") 5 ≠ [egSession] ∧
    (updateMessageContentOp [egSession] "s1" 99 (fun c => c ++ "!") 5).map
      Session.messages = [egSession].map Session.messages := by
  exact ⟨by decide, by decide⟩

/-- Claim C9 (amended): updateMessageContent with a messageId absent from
the session alters no message content, order or count — the message list
is returned untouched — but the session record is still re-stamped with a
fresh `updatedAt`. -/
theorem claim_c9_missing_message_id (store pre post : List Session) (s : Session)
    (sid : String) (mid : Nat) (f : String → String) (now : Nat)
    (hs : store = pre ++ s :: post) (hsid : s.id = sid)
    (hpre : ∀ x ∈ pre, ¬ x.id = sid) (hpost : ∀ x ∈ post, ¬ x.id = sid)
    (hmid : ∀ m ∈ s.messages, ¬ m.id = mid) :
    updateMessageContentOp store sid mid f now =
      pre ++ { s with updatedAt := now } :: post := by
  subst hs
  unfold updateMessageContentOp
  rw [updateSession_focused pre post s sid
    (fun s => { s with messages := contentUpd mid f s.messages }) now hsid hpre hpost]
  rw [contentUpd_id_not_mem mid f s.messages hmid]

/-- Claim C9 witness: the missing-id update at the demonstration store. -/
theorem claim_c9_witness :
    updateMessageContentOp [egSession] "s1" 99 (fun c => c ++ "!") 5 =
      [] ++ { egSession with updatedAt := 5 } :: [] :=
  claim_c9_missing_message_id [egSession] [] [] egSession "s1" 99 (fun c => c ++ "!") 5
    rfl rfl (by simp) (by simp) (by decide)

/-- Claim C8: insertMessageAfter never errors: when afterId is present in
the session's message list the new message is placed immediately after
it with all other messages' relative order unchanged, and when afterId is
not found the message is appended at the end of the list. -/
theorem claim_c8_insert_after_total :
    (∀ (store pre post : List Session) (s : Session) (sid : String)
       (m1 m2 : List Message) (target msg : Message) (now : Nat),
       store = pre ++ s :: post → s.id = sid →
       (∀ x ∈ pre, ¬ x.id = sid) → (∀ x ∈ post, ¬ x.id = sid) →
       s.messages = m1 ++ target :: m2 →
       (∀ m ∈ m1, ¬ m.id = target.id) →
       insertMessageAfterOp store sid target.id msg now =
         pre ++ { s with messages := m1 ++ target :: msg :: m2,
                         updatedAt := now } :: post) ∧
    (∀ (store pre post : List Session) (s : Session) (sid : String)
       (msg : Message) (afterId : Nat) (now : Nat),
       store = pre ++ s :: post → s.id = sid →
       (∀ x ∈ pre, ¬ x.id = sid) → (∀ x ∈ post, ¬ x.id = sid) →
       (∀ m ∈ s.messages, ¬ m.id = afterId) →
       insertMessageAfterOp store sid afterId msg now =
         pre ++ { s with messages := s.messages ++ [msg],
                         updatedAt := now } :: post) := by
  constructor
  · intro store pre post s sid m1 m2 target msg now hs hsid hpre hpost hmsgs hm1
    subst hs
    unfold insertMessageAfterOp
    rw [updateSession_focused pre post s sid
      (fun s => { s with messages := insertAfterList s.messages target.id msg }) now
      hsid hpre hpost]
    rw [show insertAfterList s.messages target.id msg = m1 ++ target :: msg :: m2 from by
      rw [hmsgs]; exact insertAfterList_found m1 target m2 msg hm1]
  · intro store pre post s sid msg afterId now hs hsid hpre hpost hmiss
    subst hs
    unfold insertMessageAfterOp
    rw [updateSession_focused pre post s sid
      (fun s => { s with messages := insertAfterList s.messages afterId msg }) now
      hsid hpre hpost]
    rw [insertAfterList_not_found s.messages afterId msg hmiss]

/-- Claim C8 witness: both the found and the fallback branch at the
demonstration store. -/
theorem claim_c8_witness :
    insertMessageAfterOp [egSession] "s1" 1 egT 5 =
      [] ++ { egSession with messages := [] ++ egU :: egT :: [egA],
                             updatedAt := 5 } :: [] ∧
    insertMessageAfterOp [egSession] "s1" 42 egT 5 =
      [] ++ { egSession with messages := egSession.messages ++ [egT],
                             updatedAt := 5 } :: [] :=
  ⟨claim_c8_insert_after_total.1 [egSession] [] [] egSession "s1" [] [egA] egU egT 5
      rfl rfl (by simp) (by simp) rfl (by simp),
   claim_c8_insert_after_total.2 [egSession] [] [] egSession "s1" egT 42 5
      rfl rfl (by simp) (by simp) (by decide)⟩

/-- Claim C7: the conversation context sent with every start-generation
call is the system preamble followed by only the text-kind user/assistant
messages of the session, restricted to the most recent 12 of them; thought
and tool messages are never included. -/
theorem claim_c7_context_window (session : Session) (messages : List Message)
    (extraSystem : String) :
    ∃ dropped kept,
      messages.filter isTextUA = dropped ++ kept ∧
      kept.length = min maxContextMessages (messages.filter isTextUA).length ∧
      buildModelMessages session messages extraSystem =
        systemPreamble session extraSystem ::
          kept.map (fun m => ChatMessage.mk m.role m.content) ∧
      ∀ m ∈ kept, m.kind = "text" ∧ (m.role = "user" ∨ m.role = "assistant") := by
  refine ⟨(messages.filter isTextUA).take
      ((messages.filter isTextUA).length - maxContextMessages),
    (messages.filter isTextUA).drop
      ((messages.filter isTextUA).length - maxContextMessages),
    ?_, ?_, ?_, ?_⟩
  · exact (List.take_append_drop _ _).symm
  · rw [List.length_drop]
    simp only [maxContextMessages]
    omega
  · rfl
  · intro m hm
    have hT := List.of_mem_filter (List.mem_of_mem_drop hm)
    simpa [isTextUA] using hT

/-- Claim C4: after stop() is invoked for a session's in-flight request,
no subsequently delivered content delta or reasoning delta of that request
changes any message content (the whole session store stays fixed), and
the session's status is set to disconnected. -/
theorem claim_c4_stop_suppresses_deltas (ctx : ReqCtx) (st : StreamState)
    (sid : String) (s : Session) (evs : List AgentEvent)
    (hfind : findSession st.sessions sid = some s)
    (hdelta : ∀ e ∈ evs,
      (∃ d, e = AgentEvent.token d) ∨ (∃ d, e = AgentEvent.reasoning d)) :
    findSession (handleStop st (some sid)).sessions sid =
      some { s with status := "disconnected", updatedAt := st.time } ∧
    (applyEvents ctx (handleStop st (some sid)) evs).sessions =
      (handleStop st (some sid)).sessions := by
  obtain ⟨hsess, hstop, hreq⟩ := handleStop_parts st sid
  constructor
  · rw [hsess]
    exact findSession_statusUpdate st.sessions sid "disconnected" st.time s hfind
  · rw [stopped_delta_run ctx evs (handleStop st (some sid)) hstop hreq hdelta]

/-- Claim C4 witness: stop at the demonstration state, then a content and
a reasoning delta. -/
theorem claim_c4_witness :
    findSession (handleStop egSt (some "s1")).sessions "s1" =
      some { egSession with status := "disconnected", updatedAt := 0 } ∧
    (applyEvents egCtx (handleStop egSt (some "s1"))
        [AgentEvent.token "x", AgentEvent.reasoning "y"]).sessions =
      (handleStop egSt (some "s1")).sessions :=
  claim_c4_stop_suppresses_deltas egCtx egSt "s1" egSession
    [AgentEvent.token "x", AgentEvent.reasoning "y"] (by decide) (by
      intro e he
      simp only [List.mem_cons, List.not_mem_nil, or_false] at he
      rcases he with rfl | rfl
      · exact Or.inl ⟨"x", rfl⟩
      · exact Or.inr ⟨"y", rfl⟩)

/-- Claim C6: for a permission event followed by a duplicate carrying the
same callId in the same session, the duplicate is a no-op on everything
but the clock, exactly one decision prompt is raised for that callId, and
no sequence of user dialog decisions ever sends more than one
acknowledgement for it. -/
theorem claim_c6_permission_dedup (ctx : ReqCtx) (p : PermissionEvent)
    (st : StreamState) (pre post : List Session) (s : Session)
    (m1 : List Message) (am : Message) (m2 : List Message) (a : Anchor)
    (hf : Focused ctx st pre post s m1 am m2)
    (hbound : ∀ m ∈ s.messages, m.id < st.nextId)
    (hreq : st.activeRequestId = some ctx.requestId)
    (hasst : st.activeAssistant = some am.id)
    (ha : st.activeToolAnchor = some a) (hasid : a.sessionId = ctx.sessionId)
    (harid : a.requestId = ctx.requestId)
    (hsplitset : st.toolSplit.contains p.callId = false)
    (hkey : mapLookup st.toolMessageMap (ctx.sessionId, p.callId) = none)
    (hpcid : (p.callId == "") = false)
    (hdup : st.handledPermission.contains (ctx.sessionId, p.callId) = false)
    (hnoprompt : ∀ d ∈ st.prompts, ¬ d = DialogSpec.mk ctx.sessionId p.callId)
    (hnoack : ∀ e ∈ st.acks, ¬ e.1 = DialogSpec.mk ctx.sessionId p.callId) :
    step ctx (step ctx st (AgentEvent.permission p)) (AgentEvent.permission p) =
      { step ctx st (AgentEvent.permission p) with
        time := (step ctx st (AgentEvent.permission p)).time + 1 } ∧
    ((step ctx (step ctx st (AgentEvent.permission p))
        (AgentEvent.permission p)).prompts.filter
      (fun d => d == DialogSpec.mk ctx.sessionId p.callId)).length = 1 ∧
    ∀ ds : List Bool,
      ackCount (DialogSpec.mk ctx.sessionId p.callId)
        (resolveAll (step ctx (step ctx st (AgentEvent.permission p))
          (AgentEvent.permission p)) ds) ≤ 1 := by
  have hfT : Focused ctx { st with time := st.time + 1 } pre post s m1 am m2 :=
    ⟨hf.sess, hf.sid, hf.pre_ne, hf.post_ne, hf.msgs, hf.m1_ne, hf.m2_ne⟩
  have hsh := onPermission_fresh_shape ctx p { st with time := st.time + 1 } pre post
    s m1 am m2 a hfT hbound hreq hasst ha hasid harid hsplitset hkey hpcid hdup
  obtain ⟨⟨τc, τs, u', hsess, hact, hnid, hmap, hsplitE, hstopE, hreqE, hth, htimeE⟩,
    hhp, hdlg, hpr, hacks⟩ := hsh
  have hstep1 : step ctx st (AgentEvent.permission p) =
      onPermission ctx { st with time := st.time + 1 } p := rfl
  have hdup2 : step ctx (onPermission ctx { st with time := st.time + 1 } p)
      (AgentEvent.permission p) =
      { onPermission ctx { st with time := st.time + 1 } p with
        time := (onPermission ctx { st with time := st.time + 1 } p).time + 1 } := by
    show onPermission ctx
      { onPermission ctx { st with time := st.time + 1 } p with
        time := (onPermission ctx { st with time := st.time + 1 } p).time + 1 } p = _
    apply onPermission_handled
    · show (onPermission ctx { st with time := st.time + 1 } p).activeRequestId =
        some ctx.requestId
      rw [hreqE]
      exact hreq
    · show (onPermission ctx { st with time := st.time + 1 } p).handledPermission.contains
        (ctx.sessionId, p.callId) = true
      rw [hhp]
      simp
  refine ⟨by rw [hstep1]; exact hdup2, ?_, ?_⟩
  · rw [hstep1, hdup2]
    show ((onPermission ctx { st with time := st.time + 1 } p).prompts.filter
      (fun d => d == DialogSpec.mk ctx.sessionId p.callId)).length = 1
    rw [hpr, List.filter_append,
      List.filter_eq_nil_iff.mpr (fun d hd => by simpa using hnoprompt d hd)]
    simp
  · intro ds
    have ha1 : (step ctx (step ctx st (AgentEvent.permission p))
        (AgentEvent.permission p)).acks = st.acks := by
      rw [hstep1, hdup2]
      show (onPermission ctx { st with time := st.time + 1 } p).acks = st.acks
      rw [hacks]
    have ha2 : (step ctx (step ctx st (AgentEvent.permission p))
        (AgentEvent.permission p)).dialog =
        some (DialogSpec.mk ctx.sessionId p.callId) := by
      rw [hstep1, hdup2]
      show (onPermission ctx { st with time := st.time + 1 } p).dialog = _
      exact hdlg
    have hb : ackMeasure (DialogSpec.mk ctx.sessionId p.callId)
        (step ctx (step ctx st (AgentEvent.permission p))
          (AgentEvent.permission p)) ≤ 1 := by
      unfold ackMeasure ackCount
      rw [ha1, ha2,
        List.filter_eq_nil_iff.mpr (fun e he => by simpa using hnoack e he)]
      simp
    exact Nat.le_trans
      (Nat.le_trans (ackCount_le_ackMeasure _ _) (resolveAll_measure _ ds _)) hb

/-- Claim C6 witness: a fresh permission event and its duplicate at the
demonstration state, then two user decisions. -/
theorem claim_c6_witness :
    step egCtx (step egCtx egSt (AgentEvent.permission ⟨"p1", "May I?"⟩))
        (AgentEvent.permission ⟨"p1", "May I?"⟩) =
      { step egCtx egSt (AgentEvent.permission ⟨"p1", "May I?"⟩) with
        time := (step egCtx egSt (AgentEvent.permission ⟨"p1", "May I?"⟩)).time + 1 } ∧
    ((step egCtx (step egCtx egSt (AgentEvent.permission ⟨"p1", "May I?"⟩))
        (AgentEvent.permission ⟨"p1", "May I?"⟩)).prompts.filter
      (fun d => d == DialogSpec.mk "s1" "p1")).length = 1 ∧
    ackCount (DialogSpec.mk "s1" "p1")
      (resolveAll (step egCtx (step egCtx egSt (AgentEvent.permission ⟨"p1", "May I?"⟩))
        (AgentEvent.permission ⟨"p1", "May I?"⟩)) [true, true]) ≤ 1 := by
  have h := claim_c6_permission_dedup egCtx ⟨"p1", "May I?"⟩ egSt [] [] egSession
    [egU] egA [] egAnchor ⟨rfl, rfl, by simp, by simp, rfl, by decide, by simp⟩
    (by decide) rfl rfl rfl rfl rfl (by decide) rfl (by decide) (by decide)
    (by decide) (by decide)
  exact ⟨h.1, h.2.1, h.2.2 [true, true]⟩

/-- Claim C2 counterexample: the first mcp_tool_call_end event for a
fresh callId (no error payload) creates no tool message at all and maps
nothing, so "exactly one new tool message" fails for that event family. -/
theorem claim_c2_counterexample :
    msgsOf (step egCtx egSt (AgentEvent.tool ⟨"mcp_tool_call_end", "c9", {}⟩)) "s1" =
      msgsOf egSt "s1" ∧
    (step egCtx egSt
      (AgentEvent.tool ⟨"mcp_tool_call_end", "c9", {}⟩)).toolMessageMap = [] :=
  ⟨rfl, rfl⟩

/-- Claim C2 (amended): a tool event of a splitting begin kind, or a
fresh permission event, with an unseen callId creates exactly one new
tool message, anchored to the assistant message active at first
occurrence and recorded in the call-id map; every later event carrying a
mapped callId preserves the map and the set of tool messages, mutating at
most the mapped message. -/
theorem claim_c2_tool_message_dedup :
    (∀ (ctx : ReqCtx) (ev : ToolEvent) (st : StreamState)
       (pre post : List Session) (s : Session) (m1 : List Message) (am : Message)
       (m2 : List Message) (a : Anchor),
       Focused ctx st pre post s m1 am m2 →
       (∀ m ∈ s.messages, m.id < st.nextId) →
       st.activeRequestId = some ctx.requestId →
       st.activeAssistant = some am.id →
       st.activeToolAnchor = some a → a.sessionId = ctx.sessionId →
       a.requestId = ctx.requestId →
       st.toolSplit.contains ev.callId = false →
       mapLookup st.toolMessageMap (ctx.sessionId, ev.callId) = none →
       (ev.callId == "") = false →
       splitKind ev.type →
       ∃ τc τs,
         msgsOf (step ctx st (AgentEvent.tool ev)) ctx.sessionId =
           m1 ++ am ::
             ⟨st.nextId, "tool", "tool", τc, τs, some am.id, st.time + 1⟩ ::
             ⟨st.nextId + 1, "assistant", "text", "", none, none, st.time + 1⟩ :: m2 ∧
         mapLookup (step ctx st (AgentEvent.tool ev)).toolMessageMap
           (ctx.sessionId, ev.callId) = some st.nextId) ∧
    (∀ (ctx : ReqCtx) (p : PermissionEvent) (st : StreamState)
       (pre post : List Session) (s : Session) (m1 : List Message) (am : Message)
       (m2 : List Message) (a : Anchor),
       Focused ctx st pre post s m1 am m2 →
       (∀ m ∈ s.messages, m.id < st.nextId) →
       st.activeRequestId = some ctx.requestId →
       st.activeAssistant = some am.id →
       st.activeToolAnchor = some a → a.sessionId = ctx.sessionId →
       a.requestId = ctx.requestId →
       st.toolSplit.contains p.callId = false →
       mapLookup st.toolMessageMap (ctx.sessionId, p.callId) = none →
       (p.callId == "") = false →
       st.handledPermission.contains (ctx.sessionId, p.callId) = false →
       ∃ τc τs,
         msgsOf (step ctx st (AgentEvent.permission p)) ctx.sessionId =
           m1 ++ am ::
             ⟨st.nextId, "tool", "tool", τc, τs, some am.id, st.time + 1⟩ ::
             ⟨st.nextId + 1, "assistant", "text", "", none, none, st.time + 1⟩ :: m2 ∧
         mapLookup (step ctx st (AgentEvent.permission p)).toolMessageMap
           (ctx.sessionId, p.callId) = some st.nextId) ∧
    (∀ (ctx : ReqCtx) (st : StreamState) (e : AgentEvent) (c : String) (τ : Nat),
       eventCallId e = some c →
       mapLookup st.toolMessageMap (ctx.sessionId, c) = some τ →
       ToolPreserve ctx.sessionId τ st (step ctx st e)) := by
  refine ⟨?_, ?_, ?_⟩
  · intro ctx ev st pre post s m1 am m2 a hf hbound hreq hasst ha hasid harid
      hsplitset hkey hpcid htype
    have hfT : Focused ctx { st with time := st.time + 1 } pre post s m1 am m2 :=
      ⟨hf.sess, hf.sid, hf.pre_ne, hf.post_ne, hf.msgs, hf.m1_ne, hf.m2_ne⟩
    obtain ⟨τc, τs, u', hsess, hact, hnid, hmap, hsplitE, hstopE, hreqE, hth, htimeE⟩ :=
      onTool_begin_shape ctx ev { st with time := st.time + 1 } pre post s m1 am m2 a
        hfT hbound hreq hasst ha hasid harid hsplitset hkey hpcid htype
    refine ⟨τc, τs, ?_, ?_⟩
    · exact msgsOf_focused _ ctx.sessionId pre post
        { s with
          messages := m1 ++ am ::
            ⟨st.nextId, "tool", "tool", τc, τs, some am.id, st.time + 1⟩ ::
            splitContMsg { st with time := st.time + 1 } :: m2
          updatedAt := u' }
        hf.sid hf.pre_ne hsess
    · show mapLookup (onTool ctx { st with time := st.time + 1 } ev).toolMessageMap
        (ctx.sessionId, ev.callId) = some st.nextId
      rw [hmap]
      exact mapLookup_cons_self _ _ _
  · intro ctx p st pre post s m1 am m2 a hf hbound hreq hasst ha hasid harid
      hsplitset hkey hpcid hdup
    have hfT : Focused ctx { st with time := st.time + 1 } pre post s m1 am m2 :=
      ⟨hf.sess, hf.sid, hf.pre_ne, hf.post_ne, hf.msgs, hf.m1_ne, hf.m2_ne⟩
    obtain ⟨⟨τc, τs, u', hsess, hact, hnid, hmap, hsplitE, hstopE, hreqE, hth, htimeE⟩,
      hhp, hdlg, hpr, hacks⟩ :=
      onPermission_fresh_shape ctx p { st with time := st.time + 1 } pre post s m1 am
        m2 a hfT hbound hreq hasst ha hasid harid hsplitset hkey hpcid hdup
    refine ⟨τc, τs, ?_, ?_⟩
    · exact msgsOf_focused _ ctx.sessionId pre post
        { s with
          messages := m1 ++ am ::
            ⟨st.nextId, "tool", "tool", τc, τs, some am.id, st.time + 1⟩ ::
            splitContMsg { st with time := st.time + 1 } :: m2
          updatedAt := u' }
        hf.sid hf.pre_ne hsess
    · show mapLookup (onPermission ctx { st with time := st.time + 1 } p).toolMessageMap
        (ctx.sessionId, p.callId) = some st.nextId
      rw [hmap]
      exact mapLookup_cons_self _ _ _
  · intro ctx st e c τ hc h
    exact toolPreserve_step ctx st e c τ hc h

/-- Claim C2 witness: a fresh exec_command_begin at the demonstration
state, then a later exec_command_end with the same call id. -/
theorem claim_c2_witness :
    (∃ τc τs,
      msgsOf (step egCtx egSt (AgentEvent.tool ⟨"exec_command_begin", "c1", {}⟩)) "s1" =
        [egU] ++ egA ::
          ⟨3, "tool", "tool", τc, τs, some 2, 1⟩ ::
          ⟨4, "assistant", "text", "", none, none, 1⟩ :: [] ∧
      mapLookup (step egCtx egSt
        (AgentEvent.tool ⟨"exec_command_begin", "c1", {}⟩)).toolMessageMap
        ("s1", "c1") = some 3) ∧
    ToolPreserve "s1" 3
      (step egCtx egSt (AgentEvent.tool ⟨"exec_command_begin", "c1", {}⟩))
      (step egCtx (step egCtx egSt (AgentEvent.tool ⟨"exec_command_begin", "c1", {}⟩))
        (AgentEvent.tool ⟨"exec_command_end", "c1", { exitCode := some 0 }⟩)) := by
  obtain ⟨τc, τs, hmsgs, hmap⟩ := claim_c2_tool_message_dedup.1 egCtx
    ⟨"exec_command_begin", "c1", {}⟩ egSt [] [] egSession [egU] egA [] egAnchor
    ⟨rfl, rfl, by simp, by simp, rfl, by decide, by simp⟩
    (by decide) rfl rfl rfl rfl rfl (by decide) rfl (by decide)
    (Or.inr (Or.inl rfl))
  exact ⟨⟨τc, τs, hmsgs, hmap⟩,
    claim_c2_tool_message_dedup.2.2 egCtx
      (step egCtx egSt (AgentEvent.tool ⟨"exec_command_begin", "c1", {}⟩))
      (AgentEvent.tool ⟨"exec_command_end", "c1", { exitCode := some 0 }⟩) "c1" 3
      rfl hmap⟩

/-- Claim C3 counterexample: the first exec_command_end event for a fresh
callId performs no split: the active assistant target is unchanged and
the only assistant message remains the original one. -/
theorem claim_c3_counterexample :
    (step egCtx egSt (AgentEvent.tool ⟨"exec_command_end", "c7", {}⟩)).activeAssistant =
      some 2 ∧
    roleIds "assistant"
      (msgsOf (step egCtx egSt (AgentEvent.tool ⟨"exec_command_end", "c7", {}⟩)) "s1") =
      [2] :=
  ⟨rfl, rfl⟩

/-- Claim C3 (amended): exactly the begin kinds tool_call,
exec_command_begin, patch_apply_begin, apply_patch_begin and
mcp_tool_call_begin split on the first occurrence of a call id — the
targeted assistant message is closed, a tool message anchored to it is
inserted right after, and a fresh assistant message becomes the new delta
target — while tool_call_update, exec_command_output_delta,
exec_command_end, patch_apply_end, apply_patch_end and mcp_tool_call_end
never move the assistant target nor add assistant messages. -/
theorem claim_c3_split_kinds :
    (∀ (ctx : ReqCtx) (ev : ToolEvent) (st : StreamState)
       (pre post : List Session) (s : Session) (m1 : List Message) (am : Message)
       (m2 : List Message) (a : Anchor),
       Focused ctx st pre post s m1 am m2 →
       (∀ m ∈ s.messages, m.id < st.nextId) →
       st.activeRequestId = some ctx.requestId →
       st.activeAssistant = some am.id →
       st.activeToolAnchor = some a → a.sessionId = ctx.sessionId →
       a.requestId = ctx.requestId →
       st.toolSplit.contains ev.callId = false →
       mapLookup st.toolMessageMap (ctx.sessionId, ev.callId) = none →
       (ev.callId == "") = false →
       splitKind ev.type →
       ∃ τc τs,
         msgsOf (step ctx st (AgentEvent.tool ev)) ctx.sessionId =
           m1 ++ am ::
             ⟨st.nextId, "tool", "tool", τc, τs, some am.id, st.time + 1⟩ ::
             ⟨st.nextId + 1, "assistant", "text", "", none, none, st.time + 1⟩ :: m2 ∧
         (step ctx st (AgentEvent.tool ev)).activeAssistant = some (st.nextId + 1) ∧
         ¬ st.nextId + 1 = am.id) ∧
    (∀ (ctx : ReqCtx) (ev : ToolEvent) (st : StreamState),
       nonSplitKind ev.type →
       (step ctx st (AgentEvent.tool ev)).activeAssistant = st.activeAssistant ∧
       roleIds "assistant" (msgsOf (step ctx st (AgentEvent.tool ev)) ctx.sessionId) =
         roleIds "assistant" (msgsOf st ctx.sessionId)) := by
  constructor
  · intro ctx ev st pre post s m1 am m2 a hf hbound hreq hasst ha hasid harid
      hsplitset hkey hpcid htype
    have hfT : Focused ctx { st with time := st.time + 1 } pre post s m1 am m2 :=
      ⟨hf.sess, hf.sid, hf.pre_ne, hf.post_ne, hf.msgs, hf.m1_ne, hf.m2_ne⟩
    obtain ⟨τc, τs, u', hsess, hact, hnid, hmap, hsplitE, hstopE, hreqE, hth, htimeE⟩ :=
      onTool_begin_shape ctx ev { st with time := st.time + 1 } pre post s m1 am m2 a
        hfT hbound hreq hasst ha hasid harid hsplitset hkey hpcid htype
    have hamlt : am.id < st.nextId :=
      hbound am (by
        rw [hf.msgs]
        exact List.mem_append.mpr (Or.inr (List.mem_cons_self _ _)))
    refine ⟨τc, τs, ?_, hact, by omega⟩
    exact msgsOf_focused _ ctx.sessionId pre post
      { s with
        messages := m1 ++ am ::
          ⟨st.nextId, "tool", "tool", τc, τs, some am.id, st.time + 1⟩ ::
          splitContMsg { st with time := st.time + 1 } :: m2
        updatedAt := u' }
      hf.sid hf.pre_ne hsess
  · intro ctx ev st htype
    have hA := asstPreserve_onTool_nonsplit ctx ev { st with time := st.time + 1 } htype
    exact ⟨hA.1, hA.2⟩

/-- Claim C3 witness: a fresh tool_call splits at the demonstration
state; a fresh exec_command_end does not. -/
theorem claim_c3_witness :
    (∃ τc τs,
      msgsOf (step egCtx egSt (AgentEvent.tool ⟨"tool_call", "c1", {}⟩)) "s1" =
        [egU] ++ egA ::
          ⟨3, "tool", "tool", τc, τs, some 2, 1⟩ ::
          ⟨4, "assistant", "text", "", none, none, 1⟩ :: [] ∧
      (step egCtx egSt (AgentEvent.tool ⟨"tool_call", "c1", {}⟩)).activeAssistant =
        some 4 ∧
      ¬ (4 : Nat) = 2) ∧
    ((step egCtx egSt (AgentEvent.tool ⟨"exec_command_end", "c1", {}⟩)).activeAssistant =
        egSt.activeAssistant ∧
      roleIds "assistant" (msgsOf (step egCtx egSt
        (AgentEvent.tool ⟨"exec_command_end", "c1", {}⟩)) "s1") =
        roleIds "assistant" (msgsOf egSt "s1")) :=
  ⟨claim_c3_split_kinds.1 egCtx ⟨"tool_call", "c1", {}⟩ egSt [] [] egSession
      [egU] egA [] egAnchor ⟨rfl, rfl, by simp, by simp, rfl, by decide, by simp⟩
      (by decide) rfl rfl rfl rfl rfl (by decide) rfl (by decide) (Or.inl rfl),
   claim_c3_split_kinds.2 egCtx ⟨"exec_command_end", "c1", {}⟩ egSt
      (Or.inr (Or.inr (Or.inl rfl)))⟩

/-- Claim C1 counterexample: a non-splitting tool event
(exec_command_end) between two deltas does not freeze the assistant
message: both deltas accumulate in the same message and no new assistant
target is opened. -/
theorem claim_c1_counterexample :
    msgContent (applyEvents egCtx egSt
      [AgentEvent.token "Hello ", AgentEvent.tool ⟨"exec_command_end", "c9", {}⟩,
       AgentEvent.token "world"]) "s1" 2 = some "Hello world" ∧
    (applyEvents egCtx egSt
      [AgentEvent.token "Hello ", AgentEvent.tool ⟨"exec_command_end", "c9", {}⟩,
       AgentEvent.token "world"]).activeAssistant = some 2 :=
  ⟨rfl, rfl⟩

/-- Claim C1 (amended): within one request the targeted assistant message
accumulates exactly the concatenation of the delivered deltas in order;
when a splitting tool event intervenes, the content up to the split point
stays frozen in the closed assistant message and all subsequent deltas go
to the newly opened assistant message. -/
theorem claim_c1_delta_routing :
    (∀ (ctx : ReqCtx) (st : StreamState) (pre post : List Session) (s : Session)
       (m1 : List Message) (am : Message) (m2 : List Message) (ds : List String),
       Focused ctx st pre post s m1 am m2 →
       st.stopRequested = false →
       st.activeRequestId = some ctx.requestId →
       st.activeAssistant = some am.id →
       msgContent (applyEvents ctx st (ds.map AgentEvent.token)) ctx.sessionId am.id =
         some (am.content ++ concatList ds)) ∧
    (∀ (ctx : ReqCtx) (st : StreamState) (pre post : List Session) (s : Session)
       (m1 : List Message) (am : Message) (m2 : List Message) (a : Anchor)
       (ds1 : List String) (ev : ToolEvent) (ds2 : List String),
       Focused ctx st pre post s m1 am m2 →
       (∀ m ∈ s.messages, m.id < st.nextId) →
       st.stopRequested = false →
       st.activeRequestId = some ctx.requestId →
       st.activeAssistant = some am.id →
       st.activeToolAnchor = some a → a.sessionId = ctx.sessionId →
       a.requestId = ctx.requestId →
       st.toolSplit.contains ev.callId = false →
       mapLookup st.toolMessageMap (ctx.sessionId, ev.callId) = none →
       (ev.callId == "") = false →
       splitKind ev.type →
       msgContent (applyEvents ctx st
           (ds1.map AgentEvent.token ++ AgentEvent.tool ev :: ds2.map AgentEvent.token))
         ctx.sessionId am.id = some (am.content ++ concatList ds1) ∧
       msgContent (applyEvents ctx st
           (ds1.map AgentEvent.token ++ AgentEvent.tool ev :: ds2.map AgentEvent.token))
         ctx.sessionId (st.nextId + 1) = some (concatList ds2) ∧
       ¬ st.nextId + 1 = am.id) := by
  constructor
  · intro ctx st pre post s m1 am m2 ds hf h1 h2 h3
    obtain ⟨t', u', hrun⟩ := tokens_run ctx ds st pre post s m1 am m2 hf h1 h2 h3
    exact msgContent_focused _ ctx.sessionId pre post
      { s with messages := m1 ++ { am with content := am.content ++ concatList ds } :: m2,
               updatedAt := u' }
      m1 { am with content := am.content ++ concatList ds } m2
      hf.sid hf.pre_ne (by rw [hrun]) rfl hf.m1_ne
  · intro ctx st pre post s m1 am m2 a ds1 ev ds2 hf hbound h1 h2 h3 ha hasid harid
      hsplitset hkey hpcid htype
    obtain ⟨t', u', hrun1⟩ := tokens_run ctx ds1 st pre post s m1 am m2 hf h1 h2 h3
    set st1 := applyEvents ctx st (ds1.map AgentEvent.token) with hst1
    have hsplitApply : applyEvents ctx st
        (ds1.map AgentEvent.token ++ AgentEvent.tool ev :: ds2.map AgentEvent.token) =
        applyEvents ctx (step ctx st1 (AgentEvent.tool ev)) (ds2.map AgentEvent.token) := by
      rw [hst1]
      simp [applyEvents, List.foldl_append]
    have hfT : Focused ctx { st1 with time := st1.time + 1 } pre post
        { s with messages := m1 ++ { am with content := am.content ++ concatList ds1 } :: m2,
                 updatedAt := u' }
        m1 { am with content := am.content ++ concatList ds1 } m2 := by
      refine ⟨?_, hf.sid, hf.pre_ne, hf.post_ne, rfl, hf.m1_ne, hf.m2_ne⟩
      show st1.sessions = _
      rw [hrun1]
    have hmem_am : am ∈ s.messages := by
      rw [hf.msgs]
      exact List.mem_append.mpr (Or.inr (List.mem_cons_self _ _))
    have hamlt : am.id < st.nextId := hbound am hmem_am
    have hb1 : ∀ m ∈ ({ s with
        messages := m1 ++ { am with content := am.content ++ concatList ds1 } :: m2,
        updatedAt := u' } : Session).messages,
        m.id < ({ st1 with time := st1.time + 1 } : StreamState).nextId := by
      intro m hm
      show m.id < st1.nextId
      have hn : st1.nextId = st.nextId := by rw [hrun1]
      rw [hn]
      rcases List.mem_append.mp hm with hmem | hmem
      · exact hbound m (by rw [hf.msgs]; exact List.mem_append.mpr (Or.inl hmem))
      · rcases List.mem_cons.mp hmem with rfl | hmem2
        · exact hamlt
        · exact hbound m (by
            rw [hf.msgs]
            exact List.mem_append.mpr (Or.inr (List.mem_cons_of_mem _ hmem2)))
    have hbs := onTool_begin_shape ctx ev { st1 with time := st1.time + 1 } pre post
      { s with messages := m1 ++ { am with content := am.content ++ concatList ds1 } :: m2,
               updatedAt := u' }
      m1 { am with content := am.content ++ concatList ds1 } m2 a hfT hb1
      (show st1.activeRequestId = _ by rw [hrun1]; exact h2)
      (show st1.activeAssistant = _ by rw [hrun1]; exact h3)
      (show st1.activeToolAnchor = _ by rw [hrun1]; exact ha)
      hasid harid
      (show st1.toolSplit.contains ev.callId = false by rw [hrun1]; exact hsplitset)
      (show mapLookup st1.toolMessageMap (ctx.sessionId, ev.callId) = none by
        rw [hrun1]; exact hkey)
      hpcid htype
    have hres := beginShape_tokens ctx ev.callId { st1 with time := st1.time + 1 }
      pre post
      { s with messages := m1 ++ { am with content := am.content ++ concatList ds1 } :: m2,
               updatedAt := u' }
      m1 { am with content := am.content ++ concatList ds1 } m2
      (onTool ctx { st1 with time := st1.time + 1 } ev) hbs hf.sid hf.pre_ne hf.post_ne
      (fun m hm => by
        show m.id < st1.nextId
        have hn : st1.nextId = st.nextId := by rw [hrun1]
        rw [hn]
        exact hbound m (by rw [hf.msgs]; exact List.mem_append.mpr (Or.inl hm)))
      hf.m1_ne
      (show am.id < st1.nextId by
        have hn : st1.nextId = st.nextId := by rw [hrun1]
        rw [hn]; exact hamlt)
      (fun m hm => by
        show m.id < st1.nextId
        have hn : st1.nextId = st.nextId := by rw [hrun1]
        rw [hn]
        exact hbound m (by
          rw [hf.msgs]
          exact List.mem_append.mpr (Or.inr (List.mem_cons_of_mem _ hm))))
      (show st1.stopRequested = false by rw [hrun1]; exact h1)
      (show st1.activeRequestId = _ by rw [hrun1]; exact h2)
      ds2
    obtain ⟨hc1, hc2, hc3, hc4⟩ := hres
    have hn : st1.nextId = st.nextId := by rw [hrun1]
    refine ⟨?_, ?_, ?_⟩
    · rw [hsplitApply]
      exact hc1
    · rw [hsplitApply]
      show msgContent _ ctx.sessionId (st.nextId + 1) = some (concatList ds2)
      rw [show st.nextId = ({ st1 with time := st1.time + 1 } : StreamState).nextId from
        (show st1.nextId = st.nextId from hn).symm]
      exact hc2
    · have := hc4
      show ¬ st.nextId + 1 = am.id
      rw [show st.nextId = ({ st1 with time := st1.time + 1 } : StreamState).nextId from
        (show st1.nextId = st.nextId from hn).symm]
      exact this

/-- Claim C1 witness: a delta, a splitting exec_command_begin, then
another delta at the demonstration state. -/
theorem claim_c1_witness :
    msgContent (applyEvents egCtx egSt
        (["Hello"].map AgentEvent.token ++
          AgentEvent.tool ⟨"exec_command_begin", "c1", {}⟩ ::
          [" world"].map AgentEvent.token)) "s1" 2 =
      some ("" ++ concatList ["Hello"]) ∧
    msgContent (applyEvents egCtx egSt
        (["Hello"].map AgentEvent.token ++
          AgentEvent.tool ⟨"exec_command_begin", "c1", {}⟩ ::
          [" world"].map AgentEvent.token)) "s1" 4 =
      some (concatList [" world"]) ∧
    ¬ (4 : Nat) = 2 :=
  claim_c1_delta_routing.2 egCtx egSt [] [] egSession [egU] egA [] egAnchor
    ["Hello"] ⟨"exec_command_begin", "c1", {}⟩ [" world"]
    ⟨rfl, rfl, by simp, by simp, rfl, by decide, by simp⟩
    (by decide) rfl rfl rfl rfl rfl rfl (by decide) rfl (by decide)
    (Or.inr (Or.inl rfl))

/-! ### The C5 finish scenario -/

/-- The stripped assistant message of the C5 scenario. -/
def c5D2 : Message := ⟨2, "assistant", "text", "Done.", none, none, 0⟩

/-- The continuation assistant message opened by the oc split. -/
def c5M4 : Message := ⟨4, "assistant", "text", "", none, none, 1⟩

/-- The oc tool message of the C5 scenario with the given content. -/
def c5T3 (c : String) : Message := ⟨3, "tool", "tool", c, none, some 2, 1⟩

/-- The C5 session with the oc tool message holding the given content. -/
def c5Sess (c : String) : Session :=
  ⟨"s1", "connected", "codex", "Codex", [egU, c5D2, c5T3 c, c5M4], 1⟩

/-- The C5 state right after the directive was stripped and the oc split
ran: tool message 3 anchored to the stripped assistant message 2, fresh
continuation 4 targeted, call id oc-1 mapped to 3. -/
def c5Split : StreamState :=
  ⟨[c5Sess ""], 5, 1, some 7, false, [(("s1", "oc-1"), 3)], some ⟨7, "s1", 4, some 3⟩,
   some egThought, some 4, ["oc-1"], [], [], true, some "s1", "",
   "Done.\nOC_ACTION: search foo", none, [], [], []⟩

/-- The C5 state after appends filled the oc tool message with `c`. -/
def c5Run (c : String) : StreamState := { c5Split with sessions := [c5Sess c] }

/-- Claim C5 counterexample: the directive scan runs over the request-wide
accumulated assistant text, not over the text of the last active
assistant message.  The directive arrived before a message split, so the
last active assistant message reads just "Done." and carries no
directive, yet the finalizer still extracts a command — from the
request-wide accumulator, where the two deltas even fused into the bogus
argument "fooDone." — and executes it. -/
theorem claim_c5_counterexample :
    (extractOcAction ((msgContent (applyEvents egCtx egSt
        [AgentEvent.token "OC_ACTION: search foo",
         AgentEvent.tool ⟨"exec_command_begin", "c1", {}⟩,
         AgentEvent.token "Done."]) "s1" 4).getD "")).1 = [] ∧
    msgContent (finishRequest egCtx (applyEvents egCtx egSt
        [AgentEvent.token "OC_ACTION: search foo",
         AgentEvent.tool ⟨"exec_command_begin", "c1", {}⟩,
         AgentEvent.token "Done."]) none "oc-9" (ExecOutcome.ok ⟨"OUT", "", some 0⟩))
      "s1" 5 = some "$ oc search fooDone.\nOUT\nexit: 0" :=
  ⟨rfl, rfl⟩

/-- Claim C5 (amended): on completion without a stream error the
request-wide accumulated assistant text is scanned for the action
directive; if found, the directive line is stripped from the currently
targeted assistant message and executed, with stdout, stderr and exit
code appended line by line to a tool message opened after a fresh split.
In the concrete example, finished text "Done.\nOC_ACTION: search foo"
yields displayed content "Done." plus a tool message with the command
line, the runner output and the exit status. -/
theorem claim_c5_action_directive (out err : String) (code : Int)
    (hout : (out == "") = false) (herr : (err == "") = false) :
    msgContent (finishRequest egCtx
        (applyEvents egCtx egSt [AgentEvent.token "Done.\nOC_ACTION: search foo"])
        none "oc-1" (ExecOutcome.ok ⟨out, err, some code⟩)) "s1" 2 = some "Done." ∧
    getMsg (finishRequest egCtx
        (applyEvents egCtx egSt [AgentEvent.token "Done.\nOC_ACTION: search foo"])
        none "oc-1" (ExecOutcome.ok ⟨out, err, some code⟩)) "s1" 3 =
      some ⟨3, "tool", "tool",
        "$ oc search foo" ++ "\n" ++ out ++ "\n" ++ err ++ "\n" ++
          ("exit: " ++ toString code),
        none, some 2, 1⟩ := by
  have hstage : finishRequest egCtx
      (applyEvents egCtx egSt [AgentEvent.token "Done.\nOC_ACTION: search foo"])
      none "oc-1" (ExecOutcome.ok ⟨out, err, some code⟩) =
      requestCleanup egCtx (runOcCommand c5Split "s1" ["search", "foo"] "tool" "oc-1"
        none (ExecOutcome.ok ⟨out, err, some code⟩)) := rfl
  have hbase1 : (("$ oc search foo" ++ "\n" ++ out) == "") = false :=
    append_beq_empty_false _ _ (append_beq_empty_false "$ oc search foo" "\n" (by decide))
  have hbase2 : (("$ oc search foo" ++ "\n" ++ out ++ "\n" ++ err) == "") = false :=
    append_beq_empty_false _ _ (append_beq_empty_false _ _ hbase1)
  have e1 : appendOcLine c5Split "s1" "oc-1" "tool" none "$ oc search foo" =
      c5Run "$ oc search foo" := by
    rw [appendOcLine_single c5Split "s1" "oc-1" "tool" "$ oc search foo" 3
      (c5Sess "") [egU, c5D2] (c5T3 "") [c5M4]
      (by decide) rfl rfl rfl rfl (by decide) (by decide)]
    rfl
  have e2 : appendOcLine (c5Run "$ oc search foo") "s1" "oc-1" "tool" none out =
      c5Run ("$ oc search foo" ++ "\n" ++ out) := by
    rw [appendOcLine_single (c5Run "$ oc search foo") "s1" "oc-1" "tool" out 3
      (c5Sess "$ oc search foo") [egU, c5D2] (c5T3 "$ oc search foo") [c5M4]
      (by decide) rfl rfl rfl rfl (by decide) (by decide)]
    rw [show (c5T3 "$ oc search foo").content = "$ oc search foo" from rfl]
    rw [show appendLineFun out "$ oc search foo" = "$ oc search foo" ++ "\n" ++ out from by
      unfold appendLineFun
      rw [if_neg (by decide), if_neg (by simp [hout])]]
    rfl
  have e3 : appendOcLine (c5Run ("$ oc search foo" ++ "\n" ++ out)) "s1" "oc-1" "tool"
      none err = c5Run ("$ oc search foo" ++ "\n" ++ out ++ "\n" ++ err) := by
    rw [appendOcLine_single (c5Run ("$ oc search foo" ++ "\n" ++ out)) "s1" "oc-1"
      "tool" err 3 (c5Sess ("$ oc search foo" ++ "\n" ++ out)) [egU, c5D2]
      (c5T3 ("$ oc search foo" ++ "\n" ++ out)) [c5M4]
      rfl rfl rfl rfl rfl (by decide) (by decide)]
    rw [show (c5T3 ("$ oc search foo" ++ "\n" ++ out)).content =
      "$ oc search foo" ++ "\n" ++ out from rfl]
    rw [show appendLineFun err ("$ oc search foo" ++ "\n" ++ out) =
        "$ oc search foo" ++ "\n" ++ out ++ "\n" ++ err from by
      unfold appendLineFun
      rw [if_neg (by simp only [hbase1, Bool.false_eq_true]; exact not_false),
        if_neg (by simp [herr])]]
    rfl
  have e4 : appendOcLine (c5Run ("$ oc search foo" ++ "\n" ++ out ++ "\n" ++ err))
      "s1" "oc-1" "tool" none ("exit: " ++ toString code) =
      c5Run ("$ oc search foo" ++ "\n" ++ out ++ "\n" ++ err ++ "\n" ++
        ("exit: " ++ toString code)) := by
    rw [appendOcLine_single (c5Run ("$ oc search foo" ++ "\n" ++ out ++ "\n" ++ err))
      "s1" "oc-1" "tool" ("exit: " ++ toString code) 3
      (c5Sess ("$ oc search foo" ++ "\n" ++ out ++ "\n" ++ err)) [egU, c5D2]
      (c5T3 ("$ oc search foo" ++ "\n" ++ out ++ "\n" ++ err)) [c5M4]
      rfl rfl rfl rfl rfl (by decide) (by decide)]
    rw [show (c5T3 ("$ oc search foo" ++ "\n" ++ out ++ "\n" ++ err)).content =
      "$ oc search foo" ++ "\n" ++ out ++ "\n" ++ err from rfl]
    rw [show appendLineFun ("exit: " ++ toString code)
        ("$ oc search foo" ++ "\n" ++ out ++ "\n" ++ err) =
        "$ oc search foo" ++ "\n" ++ out ++ "\n" ++ err ++ "\n" ++
          ("exit: " ++ toString code) from by
      unfold appendLineFun
      rw [if_neg (by simp only [hbase2, Bool.false_eq_true]; exact not_false),
        if_neg (by
          have hexit : (("exit: " ++ toString code) == "") = false :=
            append_beq_empty_false "exit: " (toString code) (by decide)
          simp only [hexit, Bool.false_eq_true]
          exact not_false)]]
    rfl
  rw [hstage]
  unfold runOcCommand
  rw [if_neg (by decide)]
  dsimp only
  rw [show ("$ oc " ++ String.intercalate " " ["search", "foo"]) = "$ oc search foo"
    from by decide]
  rw [e1, if_pos (bne_empty_true out hout), e2,
    if_pos (bne_empty_true err herr), e3, e4]
  constructor
  · exact msgContent_focused
      (requestCleanup egCtx (c5Run ("$ oc search foo" ++ "\n" ++ out ++ "\n" ++ err ++
        "\n" ++ ("exit: " ++ toString code)))) "s1" [] []
      (c5Sess ("$ oc search foo" ++ "\n" ++ out ++ "\n" ++ err ++
        "\n" ++ ("exit: " ++ toString code)))
      [egU] c5D2
      [c5T3 ("$ oc search foo" ++ "\n" ++ out ++ "\n" ++ err ++
        "\n" ++ ("exit: " ++ toString code)), c5M4]
      rfl (by simp) rfl rfl (by decide)
  · exact getMsg_focused
      (requestCleanup egCtx (c5Run ("$ oc search foo" ++ "\n" ++ out ++ "\n" ++ err ++
        "\n" ++ ("exit: " ++ toString code)))) "s1" [] []
      (c5Sess ("$ oc search foo" ++ "\n" ++ out ++ "\n" ++ err ++
        "\n" ++ ("exit: " ++ toString code)))
      [egU, c5D2]
      (c5T3 ("$ oc search foo" ++ "\n" ++ out ++ "\n" ++ err ++
        "\n" ++ ("exit: " ++ toString code)))
      [c5M4]
      rfl (by simp) rfl rfl (by simp [egU, c5D2, c5T3])

/-- Claim C5 witness: the directive scenario with concrete runner output. -/
theorem claim_c5_witness :
    msgContent (finishRequest egCtx
        (applyEvents egCtx egSt [AgentEvent.token "Done.\nOC_ACTION: search foo"])
        none "oc-1" (ExecOutcome.ok ⟨"OUT", "ERR", some 0⟩)) "s1" 2 = some "Done." ∧
    getMsg (finishRequest egCtx
        (applyEvents egCtx egSt [AgentEvent.token "Done.\nOC_ACTION: search foo"])
        none "oc-1" (ExecOutcome.ok ⟨"OUT", "ERR", some 0⟩)) "s1" 3 =
      some ⟨3, "tool", "tool",
        "$ oc search foo" ++ "\n" ++ "OUT" ++ "\n" ++ "ERR" ++ "\n" ++
          ("exit: " ++ toString (0 : Int)),
        none, some 2, 1⟩ :=
  claim_c5_action_directive "OUT" "ERR" 0 (by decide) (by decide)

end OpenContext
